import Mathlib

/-!
# SigDigger capture session controller

A shallow embedding of `src/App/Application.cpp`: the acquisition life cycle
(`startCapture`, `stopCapture`, `restartCapture` and the analyzer events), the
raw-sample writer glue (`installDataSaver`, `onToggleRecord`, `onSaveError`,
`onSaveSwamped`), the audio inspector tuning (`getAudioInspectorBandwidth`,
`getAudioInspectorLo`, `assertAudioInspectorLo`), the parameter slots
`onGainChanged` and `onFrequencyChanged`, and the spectrum branch of
`onInspectorMessage`.

Conventions of the embedding:

* the members of `Application` that the handlers read or write are the fields
  of the structure `Application`; the values served by the widgets
  (`ui.sourcePanel`, `ui.audioPanel`, `ui.spectrum`) and by the mediator
  (state, profile, inspector registry) are fields as well;
* every handler returns the new `Application` together with the list of
  externally visible actions it performed, in program order (`Effect`);
* a handler that dereferences `this->analyzer` or `this->dataSaver` while the
  pointer is null has no defined result: such handlers return `Option`, and
  `none` stands for the null dereference;
* what the outside world answers during a call (the button pressed in the
  sample-rate dialog, whether the analyzer constructor throws, the descriptor
  returned by `creat`, what the sound card does) is the argument `Env`; the
  exceptions of the model are those of the `Suscan::Analyzer` constructor, of
  the `AudioPlayback` constructor and of `openPrecise`;
* `SUFREQ`, `SUFLOAT` and `qreal` values of the controller are rationals, and
  the spectrum transform is written over an arbitrary ordered field with the
  function `log10f` as a parameter: rounding, infinities and NaN of the
  floating point operations are not part of the model.
-/

namespace SigDigger

/-! ## Data model -/

/-- Modelled from the spec: the enumeration `UIMediator::State`, declared in a
header that is not part of the sources at hand. The spec lists its values as
`HALTED`, `RUNNING`, `HALTING`, `RESTARTING`. -/
inductive State where
  | HALTED
  | RUNNING
  | HALTING
  | RESTARTING
  deriving DecidableEq, Repr

/-- Modelled from the spec: the enumeration `AudioDemod` of the audio panel,
declared in a header that is not part of the sources at hand. The code only
distinguishes `USB` and `LSB` from every other demodulator. -/
inductive AudioDemod where
  | USB
  | LSB
  | other (k : Nat)
  deriving DecidableEq, Repr

/-- Source type of a profile (`SUSCAN_SOURCE_TYPE_SDR` against the rest). -/
inductive SourceType where
  | SDR
  | FILE
  deriving DecidableEq, Repr

/-- Buttons of the dialog `QMessageBox::question(..., Yes | No | Cancel)`. -/
inductive StandardButton where
  | Yes
  | No
  | Cancel
  deriving DecidableEq, Repr

/-- The capture profile served by `mediator->getProfile()`. The field
`hasInstance` is `instance != nullptr`. -/
structure Profile where
  type : SourceType
  sampleRate : Nat
  freq : Int
  gains : List (String × ℚ)
  hasInstance : Bool
  deriving DecidableEq, Repr

/-- The part of a `Suscan::Analyzer` object the controller depends on: the
sample rate it was built with and the number of raw baseband filters that
were registered on this instance. -/
structure Analyzer where
  sampleRate : Nat
  baseBandFilters : Nat
  deriving DecidableEq, Repr

/-- An `AsyncDataSaver`: descriptor it writes to, sample rate, committed size. -/
structure AsyncDataSaver where
  fd : Int
  sampleRate : Nat
  size : Nat
  deriving DecidableEq, Repr

/-- An `AudioPlayback` device handle with the rate the device settled on. -/
structure AudioPlayback where
  sampleRate : Nat
  deriving DecidableEq, Repr

/-- Values served by `ui.sourcePanel`. -/
structure SourcePanel where
  throttleEnabled : Bool
  throttleRate : Nat
  dcRemove : Bool
  iqReverse : Bool
  agcEnabled : Bool
  recordState : Bool
  deriving DecidableEq, Repr

/-- Values served by `ui.audioPanel`. -/
structure AudioPanel where
  enabled : Bool
  sampleRate : Nat
  cutOff : ℚ
  volume : ℚ
  demod : AudioDemod
  deriving DecidableEq, Repr

/-- Values served by `ui.spectrum`: the cursor (`getLoFreq`) and the display
bandwidth (`getBandwidth`). -/
structure Spectrum where
  loFreq : ℚ
  bandwidth : ℚ
  deriving DecidableEq, Repr

/-- The widgets the controller reads. -/
structure Ui where
  sourcePanel : SourcePanel
  audioPanel : AudioPanel
  spectrum : Spectrum
  deriving DecidableEq, Repr

/-- Constants of `Application.h`, which is not part of the sources at hand;
they are parameters of the model. `demodIndex` is the integer value of an
`AudioDemod` enumerator. -/
structure Constants where
  SIGDIGGER_MAX_SAMPLE_RATE : Nat
  SIGDIGGER_AUDIO_INSPECTOR_BANDWIDTH : ℚ
  demodIndex : AudioDemod → Nat

/-- The controller: mediator data (`state`, `profile`, `inspectors`,
`captureSize`), widgets, and the members of `Application`. -/
structure Application where
  state : State
  profile : Profile
  inspectors : List Nat
  captureSize : Nat
  ui : Ui
  analyzer : Option Analyzer
  dataSaver : Option AsyncDataSaver
  playBack : Option AudioPlayback
  filterInstalled : Bool
  audioConfigured : Bool
  audioInspectorOpened : Bool
  audioInspHandle : Nat
  audioSampleRate : Nat
  lastAudioLo : ℚ
  maxAudioBw : ℚ
  delayedRate : Nat
  delayedCutOff : ℚ
  delayedVolume : ℚ
  delayedDemod : Nat
  deriving DecidableEq, Repr

/-- Requests sent to the analyzer object. -/
inductive AnalyzerCall where
  | halt
  | registerBaseBandFilter
  | setThrottle (rate : Nat)
  | setDCRemove (b : Bool)
  | setIQReverse (b : Bool)
  | setAGC (b : Bool)
  | setGain (name : String) (val : ℚ)
  | setFrequency (freq : Int)
  | setInspectorFreq (handle : Nat) (lo : ℚ)
  | setInspectorBandwidth (handle : Nat) (bw : ℚ)
  | setInspectorConfig (handle : Nat) (rate : Nat) (cutOff volume : ℚ) (demod : Nat)
  | openPrecise (bw fc : ℚ)
  | closeInspector (handle : Nat)
  deriving DecidableEq, Repr

/-- Externally visible actions of the handlers, in program order. -/
inductive Effect where
  | messageBox (title : String)
  | flushLog
  | newAnalyzer
  | analyzer (c : AnalyzerCall)
  | releaseAnalyzer
  | newDataSaver (fd : Int)
  | connectDataSaver
  | uninstallDataSaver
  | connectAnalyzer
  | setState (s : State)
  | detachAllInspectors
  | closeAudio
  | newPlayback (rate : Nat)
  | setRecordState (b : Bool)
  | setCaptureSize (n : Nat)
  | startCapture
  deriving DecidableEq, Repr

/-- What the outside world answers during one call: the button pressed in the
sample-rate dialog, whether the `Suscan::Analyzer` constructor throws, the
descriptor returned by `creat` (`-1` on failure), whether the `AudioPlayback`
constructor throws `std::runtime_error`, the rate the sound card settles on,
and whether `openPrecise` throws `Suscan::Exception`. -/
structure Env where
  reply : StandardButton
  analyzerFails : Bool
  fd : Int
  audioDeviceFails : Bool
  audioActualRate : Nat
  openPreciseFails : Bool
  deriving DecidableEq, Repr

/-- Result of a handler: new controller and the actions performed. -/
abbrev Result := Application × List Effect

/-- Sequencing of two handler fragments: the second runs on the state left by
the first, the actions are concatenated, a null dereference aborts. -/
def andThen (r : Option Result) (f : Application → Option Result) : Option Result :=
  match r with
  | none => none
  | some (a, t) =>
    match f a with
    | none => none
    | some (b, u) => some (b, t ++ u)

/-! ## Writer glue -/

/-- The body of `Application::uninstallDataSaver`: `dataSaver = nullptr`. The
caller records the call as `Effect.uninstallDataSaver`. -/
def uninstallDataSaver (app : Application) : Application :=
  { app with dataSaver := none }

/-- The body of `Application::installDataSaver`. -/
def installDataSaver (fd : Int) (app : Application) : Result :=
  match app.dataSaver, app.analyzer with
  | none, some an =>
    let saver : AsyncDataSaver := { fd := fd, sampleRate := app.profile.sampleRate, size := 0 }
    if app.filterInstalled then
      ({ app with dataSaver := some saver },
        [Effect.newDataSaver fd, Effect.connectDataSaver])
    else
      ({ app with
          dataSaver := some saver
          analyzer := some { an with baseBandFilters := an.baseBandFilters + 1 }
          filterInstalled := true },
        [Effect.newDataSaver fd, Effect.analyzer AnalyzerCall.registerBaseBandFilter,
          Effect.connectDataSaver])
  | _, _ => (app, [])

/-- The body of `Application::openCaptureFile`: the descriptor is what `creat`
returns; a warning is shown when it is `-1`. -/
def openCaptureFile (env : Env) : Int × List Effect :=
  if env.fd = -1 then (env.fd, [Effect.messageBox "SigDigger error"]) else (env.fd, [])

/-- The body of `Application::onToggleRecord`. -/
def onToggleRecord (env : Env) (app : Application) : Result :=
  if app.ui.sourcePanel.recordState then
    if app.state = State.RUNNING then
      let (fd, t) := openCaptureFile env
      if fd ≠ -1 then
        let (a, u) := installDataSaver fd app
        (a, t ++ u)
      else (app, t)
    else (app, [])
  else
    ({ uninstallDataSaver app with captureSize := 0 },
      [Effect.uninstallDataSaver, Effect.setCaptureSize 0])

/-- The effect of `mediator->setRecordState(b)` on the record check box. -/
def setRecordState (b : Bool) (app : Application) : Application :=
  { app with ui := { app.ui with sourcePanel := { app.ui.sourcePanel with recordState := b } } }

/-- The body of `Application::onSaveError` (signal `stopped`). -/
def onSaveError (app : Application) : Result :=
  match app.dataSaver with
  | some _ =>
    (setRecordState false (uninstallDataSaver app),
      [Effect.uninstallDataSaver, Effect.messageBox "SigDigger error",
        Effect.setRecordState false])
  | none => (app, [])

/-- The body of `Application::onSaveSwamped` (signal `swamped`). -/
def onSaveSwamped (app : Application) : Result :=
  match app.dataSaver with
  | some _ =>
    (setRecordState false (uninstallDataSaver app),
      [Effect.uninstallDataSaver, Effect.messageBox "SigDigger error",
        Effect.setRecordState false])
  | none => (app, [])

/-- The body of `Application::onCommit`: `dataSaver->getSize()` is read without
a null check. -/
def onCommit (app : Application) : Option Result :=
  match app.dataSaver with
  | none => none
  | some w => some ({ app with captureSize := w.size }, [Effect.setCaptureSize w.size])

/-! ## Audio inspector tuning -/

/-- The body of `Application::getAudioInspectorBandwidth`. -/
def getAudioInspectorBandwidth (app : Application) : ℚ :=
  let bw := app.ui.spectrum.bandwidth
  if bw > app.maxAudioBw then app.maxAudioBw
  else if bw < 1 then 1
  else bw

/-- The body of `Application::getAudioInspectorLo`. -/
def getAudioInspectorLo (app : Application) : ℚ :=
  let lo := app.ui.spectrum.loFreq
  let bw := getAudioInspectorBandwidth app
  if app.ui.audioPanel.demod = AudioDemod.USB then lo + (1 / 2) * bw
  else if app.ui.audioPanel.demod = AudioDemod.LSB then lo - (1 / 2) * bw
  else lo

/-- The body of `Application::assertAudioInspectorLo`; the threshold is the
literal `1e-8`. -/
def assertAudioInspectorLo (app : Application) : Option Result :=
  let lo := getAudioInspectorLo app
  if |lo - app.lastAudioLo| > 1 / 100000000 then
    match app.analyzer with
    | none => none
    | some _ =>
      some ({ app with lastAudioLo := lo },
        [Effect.analyzer (AnalyzerCall.setInspectorFreq app.audioInspHandle lo)])
  else some (app, [])

/-- The body of `Application::onLoChanged`. -/
def onLoChanged (app : Application) : Option Result :=
  if app.audioConfigured then assertAudioInspectorLo app else some (app, [])

/-- The body of `Application::onBandwidthChanged`. -/
def onBandwidthChanged (app : Application) : Option Result :=
  if app.audioConfigured then
    match app.analyzer with
    | none => none
    | some _ =>
      andThen
        (some (app, [Effect.analyzer
          (AnalyzerCall.setInspectorBandwidth app.audioInspHandle
            (getAudioInspectorBandwidth app))]))
        assertAudioInspectorLo
  else some (app, [])

/-- The body of `Application::setAudioInspectorParams`. -/
def setAudioInspectorParams (rate : Nat) (cutOff volume : ℚ) (demod : Nat)
    (app : Application) : Option Result :=
  if app.audioConfigured then
    match app.analyzer with
    | none => none
    | some _ =>
      andThen
        (some (app, [Effect.analyzer
          (AnalyzerCall.setInspectorConfig app.audioInspHandle rate cutOff (volume / 20) demod)]))
        assertAudioInspectorLo
  else
    some ({ app with
        delayedRate := rate
        delayedCutOff := cutOff
        delayedVolume := volume
        delayedDemod := demod }, [])

/-- The body of `Application::closeAudio`. The caller records the call as
`Effect.closeAudio`. -/
def closeAudio (app : Application) : Option Result :=
  let cleared : Application :=
    { app with
      audioInspectorOpened := false
      audioSampleRate := 0
      audioInspHandle := 0
      playBack := none
      audioConfigured := false }
  if app.state = State.RUNNING ∧ app.audioInspectorOpened then
    match app.analyzer with
    | none => none
    | some _ =>
      some (cleared, [Effect.analyzer (AnalyzerCall.closeInspector app.audioInspHandle)])
  else some (cleared, [])

/-- The body of `Application::openAudio`. The `bool` it returns is not used by
the callers modelled here. `analyzer->getSampleRate()` is taken to return an
unsigned integer, so its division by 2 truncates. -/
def openAudio (K : Constants) (env : Env) (rate : Nat) (app : Application) : Option Result :=
  if app.state = State.RUNNING then
    if app.playBack = none then
      let bw := K.SIGDIGGER_AUDIO_INSPECTOR_BANDWIDTH
      let rate := if (rate : ℚ) > bw then ⌊bw⌋₊ else rate
      if env.audioDeviceFails then
        some (app, [Effect.messageBox "Failed to open soundcard device"])
      else
        let lo := getAudioInspectorLo app
        let app1 : Application :=
          { app with
            playBack := some { sampleRate := env.audioActualRate }
            audioSampleRate := env.audioActualRate
            lastAudioLo := lo }
        match app1.analyzer with
        | none => none
        | some an =>
          let bw := if bw > ((an.sampleRate / 2 : Nat) : ℚ) then ((an.sampleRate / 2 : Nat) : ℚ) else bw
          let app2 : Application := { app1 with maxAudioBw := bw }
          if env.openPreciseFails then
            some ({ app2 with playBack := none },
              [Effect.newPlayback rate, Effect.messageBox "Internal Suscan exception"])
          else
            andThen
              (some (app2, [Effect.newPlayback rate,
                Effect.analyzer (AnalyzerCall.openPrecise bw lo)]))
              (setAudioInspectorParams app2.audioSampleRate app2.ui.audioPanel.cutOff
                app2.ui.audioPanel.volume (K.demodIndex app2.ui.audioPanel.demod + 1))
    else some (app, [])
  else some (app, [])

/-! ## Acquisition life cycle -/

/-- Last segment of `Application::startCapture`, from the comment "If there is
a capture file configured, install data saver" to the end of the `if` block:
the writer is installed when recording is requested and `creat` succeeds, the
analyzer signals are connected, the state becomes `RUNNING`, and the audio path
is opened when audio is enabled. -/
def startCaptureInstall (K : Constants) (env : Env) (app : Application) : Option Result :=
  let (app, t2) : Result :=
    if app.ui.sourcePanel.recordState then
      let (fd, t) := openCaptureFile env
      if fd ≠ -1 then
        let (a, u) := installDataSaver fd app
        (a, t ++ u)
      else (app, t)
    else (app, [])
  let app : Application := { app with state := State.RUNNING }
  let t3 : List Effect := t2 ++ [Effect.connectAnalyzer, Effect.setState State.RUNNING]
  if app.ui.audioPanel.enabled then
    andThen (some (app, t3)) (openAudio K env app.ui.audioPanel.sampleRate)
  else some (app, t3)

/-- Middle segment of `Application::startCapture`, from the comment "Flush log
messages from here" to `this->analyzer = std::move(analyzer)`, followed by the
last segment. When the `Suscan::Analyzer` constructor throws, the `catch`
clause of `startCapture` shows the error and sets the state to `HALTED`. -/
def startCaptureAllocate (K : Constants) (env : Env) (app : Application) : Option Result :=
  if app.profile.hasInstance = false then
    some (app, [Effect.flushLog, Effect.messageBox "SigDigger error"])
  else if env.analyzerFails then
    some ({ app with state := State.HALTED },
      [Effect.flushLog, Effect.messageBox "SigDigger error", Effect.setState State.HALTED])
  else
    let t1 : List Effect :=
      [Effect.flushLog, Effect.newAnalyzer]
        ++ (if app.ui.sourcePanel.throttleEnabled then
              [Effect.analyzer (AnalyzerCall.setThrottle app.ui.sourcePanel.throttleRate)]
            else [])
        ++ [Effect.analyzer (AnalyzerCall.setDCRemove app.ui.sourcePanel.dcRemove),
            Effect.analyzer (AnalyzerCall.setIQReverse app.ui.sourcePanel.iqReverse)]
        ++ (if app.ui.sourcePanel.agcEnabled then
              [Effect.analyzer (AnalyzerCall.setAGC true)]
            else [])
    andThen
      (some ({ app with
          analyzer := some { sampleRate := app.profile.sampleRate, baseBandFilters := 0 } }, t1))
      (startCaptureInstall K env)

/-- The body of `Application::startCapture`; its second half is
`startCaptureAllocate`. The reset of `filterInstalled` is the first statement
of the `try` block, before the test of the state. The caller records the call
as `Effect.startCapture`. -/
def startCapture (K : Constants) (env : Env) (app : Application) : Option Result :=
  let app : Application := { app with filterInstalled := false }
  if app.state = State.HALTED then
    if app.profile.type = SourceType.SDR ∧
        app.profile.sampleRate > K.SIGDIGGER_MAX_SAMPLE_RATE then
      match env.reply with
      | StandardButton.Yes =>
        andThen
          (some ({ app with
              profile := { app.profile with sampleRate := K.SIGDIGGER_MAX_SAMPLE_RATE } },
            [Effect.messageBox "Sample rate too high"]))
          (startCaptureAllocate K env)
      | StandardButton.Cancel => some (app, [Effect.messageBox "Sample rate too high"])
      | StandardButton.No =>
        andThen (some (app, [Effect.messageBox "Sample rate too high"]))
          (startCaptureAllocate K env)
    else startCaptureAllocate K env app
  else some (app, [])

/-- The body of `Application::stopCapture`. -/
def stopCapture (app : Application) : Option Result :=
  if app.state = State.RUNNING then
    match app.analyzer with
    | none => none
    | some _ =>
      some ({ app with state := State.HALTING },
        [Effect.setState State.HALTING, Effect.analyzer AnalyzerCall.halt])
  else some (app, [])

/-- The body of `Application::restartCapture`. -/
def restartCapture (app : Application) : Option Result :=
  if app.state = State.RUNNING then
    match app.analyzer with
    | none => none
    | some _ =>
      some ({ app with state := State.RESTARTING },
        [Effect.setState State.RESTARTING, Effect.analyzer AnalyzerCall.halt])
  else some (app, [])

/-- The five statements of `Application::onAnalyzerHalted` that precede the
test of `restart`: `analyzer = nullptr`, `uninstallDataSaver()`,
`setState(HALTED)`, `detachAllInspectors()`, `closeAudio()`. -/
def haltedTeardown (app : Application) : Option Result :=
  let a1 : Application := { app with analyzer := none }
  let a2 : Application := uninstallDataSaver a1
  let a3 : Application := { a2 with state := State.HALTED }
  let a4 : Application := { a3 with inspectors := [] }
  andThen
    (some (a4, [Effect.releaseAnalyzer, Effect.uninstallDataSaver,
      Effect.setState State.HALTED, Effect.detachAllInspectors, Effect.closeAudio]))
    closeAudio

/-- The body of `Application::onAnalyzerHalted`. -/
def onAnalyzerHalted (K : Constants) (env : Env) (app : Application) : Option Result :=
  let restart : Bool := decide (app.state = State.RESTARTING)
  andThen (haltedTeardown app) (fun a =>
    if restart then andThen (some (a, [Effect.startCapture])) (startCapture K env)
    else some (a, []))

/-- The body of `Application::onAnalyzerEos`. -/
def onAnalyzerEos (app : Application) : Option Result :=
  let a1 : Application := { app with state := State.HALTED }
  let a2 : Application := { a1 with inspectors := [] }
  let a3 : Application := { a2 with analyzer := none }
  andThen
    (andThen
      (some (a3, [Effect.messageBox "End of stream", Effect.setState State.HALTED,
        Effect.detachAllInspectors, Effect.releaseAnalyzer, Effect.closeAudio]))
      closeAudio)
    (fun a => some (uninstallDataSaver a, [Effect.uninstallDataSaver]))

/-- The body of `Application::onAnalyzerReadError`. -/
def onAnalyzerReadError (app : Application) : Option Result :=
  let a1 : Application := { app with state := State.HALTED }
  let a2 : Application := { a1 with analyzer := none }
  some (uninstallDataSaver a2,
    [Effect.messageBox "Source error", Effect.setState State.HALTED,
      Effect.releaseAnalyzer, Effect.uninstallDataSaver])

/-! ## Parameter changes -/

/-- Effect of `Profile::setFreq(freq)` on the stored profile. -/
def Profile.setFreq (p : Profile) (freq : Int) : Profile :=
  { p with freq := freq }

/-- Effect of `Profile::setGain(name, val)` on the stored profile: the gain map
holds `val` for `name`, the other gains are kept. -/
def Profile.setGain (p : Profile) (name : String) (val : ℚ) : Profile :=
  { p with gains := (name, val) :: p.gains.filter (fun g => g.1 ≠ name) }

/-- The value the stored profile holds for the gain `name`, if any. -/
def Profile.getGain (p : Profile) (name : String) : Option ℚ :=
  (p.gains.find? (fun g => g.1 = name)).map Prod.snd

/-- The body of `Application::onGainChanged`: both statements are inside the
test of the state. -/
def onGainChanged (name : String) (val : ℚ) (app : Application) : Option Result :=
  if app.state = State.RUNNING then
    match app.analyzer with
    | none => none
    | some _ =>
      some ({ app with profile := app.profile.setGain name val },
        [Effect.analyzer (AnalyzerCall.setGain name val)])
  else some (app, [])

/-- The body of `Application::onFrequencyChanged`: the profile is written
first, outside the test of the state. -/
def onFrequencyChanged (freq : Int) (app : Application) : Option Result :=
  let app : Application := { app with profile := app.profile.setFreq freq }
  if app.state = State.RUNNING then
    match app.analyzer with
    | none => none
    | some _ => some (app, [Effect.analyzer (AnalyzerCall.setFrequency freq)])
  else some (app, [])

/-! ## Runs of the controller -/

/-- Calls and signals the controller receives. `toggleRecord checked env` is the
user setting the record check box to `checked`, followed by the slot
`onToggleRecord`. -/
inductive Event where
  | start (env : Env)
  | stop
  | restart
  | halted (env : Env)
  | eos
  | readError
  | toggleRecord (checked : Bool) (env : Env)
  | saveError
  | saveSwamped
  deriving DecidableEq, Repr

/-- One call or signal. -/
def step (K : Constants) (app : Application) : Event → Option Result
  | Event.start env => startCapture K env app
  | Event.stop => stopCapture app
  | Event.restart => restartCapture app
  | Event.halted env => onAnalyzerHalted K env app
  | Event.eos => onAnalyzerEos app
  | Event.readError => onAnalyzerReadError app
  | Event.toggleRecord checked env => some (onToggleRecord env (setRecordState checked app))
  | Event.saveError => some (onSaveError app)
  | Event.saveSwamped => some (onSaveSwamped app)

/-- A sequence of calls and signals, left to right. -/
def run (K : Constants) : Application → List Event → Option Result
  | app, [] => some (app, [])
  | app, e :: es => andThen (step K app e) (fun a => run K a es)

/-! ## Spectrum branch of `onInspectorMessage` -/

/-- Body of the first loop of the `SPECTRUM` branch, at index `i`: the state is
the buffer `data` and the running maximum `max`;
`data[i] = log10f(data[i]); if (max < data[i]) max = data[i];`.
The function `log10f` of the C library is a parameter. -/
def spectrumLogStep {α : Type} [LinearOrderedField α] (log10f : α → α)
    (s : List α × α) (i : Nat) : List α × α :=
  let data := s.1.set i (log10f (s.1.getD i 0))
  (data, if s.2 < data.getD i 0 then data.getD i 0 else s.2)

/-- Body of the second loop of the `SPECTRUM` branch, at index `i`: the state
is the buffer `data` and the cursor `p`;
`x = data[i]; data[i] = data[p] - max; data[p] = x - max; if (++p == len) p = 0;`. -/
def spectrumSwapStep {α : Type} [LinearOrderedField α] (len : Nat) (max : α)
    (s : List α × Nat) (i : Nat) : List α × Nat :=
  let x := s.1.getD i 0
  let data := s.1.set i (s.1.getD s.2 0 - max)
  let data := data.set s.2 (x - max)
  (data, if s.2 + 1 = len then 0 else s.2 + 1)

/-- The in-place transform of the `SPECTRUM` branch of `onInspectorMessage`:
`len` is the frame length, `p = len / 2`, `max = 0`, the first loop runs over
`i < len`, then `max += 5`, then the second loop runs over `i < len / 2`. The
result is the buffer handed to `feedSpectrum`. Frames are shorter than `2^32`
samples (the loop counters are `unsigned`). -/
def spectrumTransform {α : Type} [LinearOrderedField α] (log10f : α → α)
    (data : List α) : List α :=
  let len := data.length
  let r := (List.range len).foldl (spectrumLogStep log10f) (data, 0)
  let max := r.2 + 5
  ((List.range (len / 2)).foldl (spectrumSwapStep len max) (r.1, len / 2)).1

/-- The value of `max` in the `SPECTRUM` branch after `max += 5`, that is the
ceiling the second loop subtracts: the running maximum left by the first loop,
plus 5. -/
def spectrumCeiling {α : Type} [LinearOrderedField α] (log10f : α → α)
    (data : List α) : α :=
  ((List.range data.length).foldl (spectrumLogStep log10f) (data, 0)).2 + 5

/-- The `SPECTRUM` branch of `onInspectorMessage`: when `lookupInspector` finds
the inspector, the transformed frame is forwarded to it (`feedSpectrum`);
otherwise nothing is forwarded. -/
def onInspectorMessageSpectrum {α : Type} [LinearOrderedField α] (log10f : α → α)
    (app : Application) (inspectorId : Nat) (data : List α) : Option (List α) :=
  if inspectorId ∈ app.inspectors then some (spectrumTransform log10f data) else none

/-- The value of `max` after the first loop on a frame of log values `L`. -/
def runningMax {α : Type} [LinearOrderedField α] (L : List α) : α :=
  L.foldl (fun m v => if m < v then v else m) 0

/-! ## Reference definitions of the spectrum transform, after the spec -/

/-- Reference definition, after the spec: the maximum of the values of a
frame (`0` for the empty frame, which has none). -/
def frameMax {α : Type} [LinearOrderedField α] : List α → α
  | [] => 0
  | x :: xs => xs.foldl max x

/-- Reference definition, after the spec: the half-frame swap of the log
values `L` with `ceiling` subtracted, `output[i] = L[i + N/2] − ceiling` for
`i < N/2` and `output[i] = L[i − N/2] − ceiling` for `i ≥ N/2`. -/
def halfSwap {α : Type} [LinearOrderedField α] (L : List α) (ceiling : α) : List α :=
  (List.range L.length).map (fun i =>
    if i < L.length / 2 then L.getD (i + L.length / 2) 0 - ceiling
    else L.getD (i - L.length / 2) 0 - ceiling)

/-- Reference definition, after the spec: logarithm of every sample, ceiling
`M + 5` with `M` the maximum log value of the frame, half-frame swap. -/
def spectrumReference {α : Type} [LinearOrderedField α] (log10f : α → α)
    (data : List α) : List α :=
  halfSwap (data.map log10f) (frameMax (data.map log10f) + 5)

/-! ## Reference definitions of the audio tuning, after the spec -/

/-- Reference definition, after the spec: `clamp(x, lo, hi)`, the value of `x`
brought into the interval from `lo` to `hi`. -/
def clamp (x lo hi : ℚ) : ℚ := max lo (min x hi)

/-- Reference definition, after the spec: `effectiveLO(cursorFreq, demod)` is
`cursorFreq + 0.5·bw` for USB, `cursorFreq − 0.5·bw` for LSB and `cursorFreq`
otherwise, where `bw = clamp(displayBandwidth, 1, maxAudioBandwidth)`. -/
def effectiveLO (cursorFreq : ℚ) (demod : AudioDemod)
    (displayBandwidth maxAudioBandwidth : ℚ) : ℚ :=
  let bw := clamp displayBandwidth 1 maxAudioBandwidth
  match demod with
  | AudioDemod.USB => cursorFreq + (1 / 2) * bw
  | AudioDemod.LSB => cursorFreq - (1 / 2) * bw
  | AudioDemod.other _ => cursorFreq

/-! ## Classes of actions -/

/-- The signals `stopped` and `swamped` of the writer. -/
def Event.isWriterFailure : Event → Bool
  | Event.saveError => true
  | Event.saveSwamped => true
  | _ => false


/-- The release steps of a teardown: `analyzer = nullptr`,
`uninstallDataSaver()`, `detachAllInspectors()`, `closeAudio()`. -/
def Effect.isTeardownStep : Effect → Bool
  | Effect.releaseAnalyzer => true
  | Effect.uninstallDataSaver => true
  | Effect.detachAllInspectors => true
  | Effect.closeAudio => true
  | _ => false

/-- The actions of a start that builds a session: dialogs, log flush, object
construction, requests to the analyzer, signal connections, `setState(RUNNING)`. -/
def Effect.fromStart : Effect → Bool
  | Effect.messageBox _ => true
  | Effect.flushLog => true
  | Effect.newAnalyzer => true
  | Effect.analyzer _ => true
  | Effect.newDataSaver _ => true
  | Effect.connectDataSaver => true
  | Effect.connectAnalyzer => true
  | Effect.setState State.RUNNING => true
  | Effect.newPlayback _ => true
  | _ => false

/-- Actions a call of `startCapture` may perform: those of a start that
builds a session, or the `setState(HALTED)` of its `catch` clause. -/
def startAction (env : Env) (e : Effect) : Prop :=
  e.fromStart = true ∨ (e = Effect.setState State.HALTED ∧ env.analyzerFails = true)

/-! ## Session invariants -/

/-- In `HALTED` no writer is attached. -/
def NoWriterWhenHalted (app : Application) : Prop :=
  app.state = State.HALTED → app.dataSaver = none

/-- In `HALTED` no audio playback handle is attached. -/
def NoAudioWhenHalted (app : Application) : Prop :=
  app.state = State.HALTED → app.playBack = none

/-- Outside `HALTED` the controller holds an analyzer. -/
def AnalyzerWhenActive (app : Application) : Prop :=
  app.state ≠ State.HALTED → app.analyzer.isSome = true

/-- The five actions of the teardown of `onAnalyzerHalted`, in program order. -/
def teardownTrace : List Effect :=
  [Effect.releaseAnalyzer, Effect.uninstallDataSaver, Effect.setState State.HALTED,
    Effect.detachAllInspectors, Effect.closeAudio]

/-! ## Concrete data used by the evaluations below -/

/-- A choice of the constants of `Application.h`. -/
def K0 : Constants :=
  { SIGDIGGER_MAX_SAMPLE_RATE := 3000000
    SIGDIGGER_AUDIO_INSPECTOR_BANDWIDTH := 200000
    demodIndex := fun d =>
      match d with
      | AudioDemod.USB => 2
      | AudioDemod.LSB => 3
      | AudioDemod.other k => k }

/-- Widgets: recording requested, audio enabled, USB demodulator, cursor at
100000 with a display bandwidth of 10000. -/
def ui0 : Ui :=
  { sourcePanel :=
      { throttleEnabled := false, throttleRate := 0, dcRemove := true, iqReverse := false,
        agcEnabled := false, recordState := true }
    audioPanel :=
      { enabled := true, sampleRate := 44100, cutOff := 15000, volume := 50,
        demod := AudioDemod.USB }
    spectrum := { loFreq := 100000, bandwidth := 10000 } }

/-- The initial controller: `HALTED`, no analyzer, no writer, no audio handle,
an SDR profile at 1 Msps with a source defined. -/
def app0 : Application :=
  { state := State.HALTED
    profile :=
      { type := SourceType.SDR, sampleRate := 1000000, freq := 433000000, gains := [],
        hasInstance := true }
    inspectors := []
    captureSize := 0
    ui := ui0
    analyzer := none
    dataSaver := none
    playBack := none
    filterInstalled := false
    audioConfigured := false
    audioInspectorOpened := false
    audioInspHandle := 0
    audioSampleRate := 0
    lastAudioLo := 0
    maxAudioBw := 200000
    delayedRate := 0
    delayedCutOff := 0
    delayedVolume := 0
    delayedDemod := 0 }

/-- An outside world in which everything succeeds: the constructor does not
throw, `creat` returns descriptor 3, the sound card opens at 44100. The button
is `No`. -/
def env0 : Env :=
  { reply := StandardButton.No, analyzerFails := false, fd := 3, audioDeviceFails := false,
    audioActualRate := 44100, openPreciseFails := false }

/-- The controller after `startCapture` on `app0` in the world `env0`:
`RUNNING`, analyzer with one baseband filter, writer on descriptor 3, audio
handle open. -/
def appRunning : Application :=
  { app0 with
    state := State.RUNNING
    analyzer := some { sampleRate := 1000000, baseBandFilters := 1 }
    dataSaver := some { fd := 3, sampleRate := 1000000, size := 0 }
    playBack := some { sampleRate := 44100 }
    filterInstalled := true
    audioSampleRate := 44100
    lastAudioLo := 105000
    delayedRate := 44100
    delayedCutOff := 15000
    delayedVolume := 50
    delayedDemod := 3 }

/-- The profile of `app0` with a sample rate above the ceiling of `K0`. -/
def appOver : Application :=
  { app0 with profile := { app0.profile with sampleRate := 5000000 } }

/-- The controller `appRunning` with one inspector tab registered. -/
def appInspecting : Application := { appRunning with inspectors := [1] }

/-- The controller `appRunning` after `restartCapture`. -/
def appRestarting : Application := { appRunning with state := State.RESTARTING }

/-- The controller `appRunning` after `stopCapture`. -/
def appHalting : Application := { appRunning with state := State.HALTING }

/-- The world `env0` with the button `Cancel`. -/
def envCancel : Env := { env0 with reply := StandardButton.Cancel }

/-! ## General facts about the handlers -/

/-- Sequencing after a fragment that returned. -/
theorem andThen_some (a : Application) (t : List Effect) (f : Application → Option Result) :
    andThen (some (a, t)) f = (f a).map (fun r => (r.1, t ++ r.2)) := by
  cases h : f a with
  | none => simp [andThen, h]
  | some r => cases r; simp [andThen, h]

/-- Sequencing of two fragments that both return. -/
theorem andThen_eq_some (a : Application) (t : List Effect) (f : Application → Option Result)
    (r : Result) (h : f a = some r) : andThen (some (a, t)) f = some (r.1, t ++ r.2) := by
  simp [andThen_some, h]

/-- A property of a sequence follows from that of its second fragment. -/
theorem andThen_exists {a : Application} {t : List Effect} {f : Application → Option Result}
    {P : Result → Prop} (h : ∃ r, f a = some r ∧ P (r.1, t ++ r.2)) :
    ∃ r, andThen (some (a, t)) f = some r ∧ P r := by
  obtain ⟨r, hr, hp⟩ := h
  exact ⟨_, andThen_eq_some a t f r hr, hp⟩

/-- With an analyzer, `assertAudioInspectorLo` returns and keeps the session
state, the profile and the handles. -/
theorem assertAudioInspectorLo_spec (app : Application) (an : Analyzer)
    (h : app.analyzer = some an) :
    ∃ r, assertAudioInspectorLo app = some r ∧ r.1.state = app.state ∧
      r.1.profile = app.profile ∧ r.1.analyzer = app.analyzer ∧
      r.1.dataSaver = app.dataSaver ∧ r.1.playBack = app.playBack ∧
      r.1.filterInstalled = app.filterInstalled ∧
      (∀ e ∈ r.2, e.fromStart = true) := by
  unfold assertAudioInspectorLo
  simp only [h]
  split_ifs <;> simp [h, Effect.fromStart]

/-- With an analyzer, `setAudioInspectorParams` returns and keeps the session
state, the profile and the handles. -/
theorem setAudioInspectorParams_spec (rate : Nat) (cutOff volume : ℚ) (demod : Nat)
    (app : Application) (an : Analyzer) (h : app.analyzer = some an) :
    ∃ r, setAudioInspectorParams rate cutOff volume demod app = some r ∧
      r.1.state = app.state ∧ r.1.profile = app.profile ∧ r.1.analyzer = app.analyzer ∧
      r.1.dataSaver = app.dataSaver ∧ r.1.playBack = app.playBack ∧
      r.1.filterInstalled = app.filterInstalled ∧
      (∀ e ∈ r.2, e.fromStart = true) := by
  unfold setAudioInspectorParams
  split_ifs
  · obtain ⟨r, hr, h1, h2, h3, h4, h5, h6, h7⟩ := assertAudioInspectorLo_spec app an h
    simp only [h]
    rw [andThen_eq_some _ _ _ r hr]
    refine ⟨_, rfl, h1, h2, h3.trans h, h4, h5, h6, ?_⟩
    intro e he
    simp only [List.singleton_append, List.mem_cons] at he
    rcases he with he | he
    · simp [he, Effect.fromStart]
    · exact h7 e he
  · simp

/-- With an analyzer, `openAudio` returns and keeps the session state, the
profile, the analyzer and the writer. -/
theorem openAudio_spec (K : Constants) (env : Env) (rate : Nat) (app : Application)
    (an : Analyzer) (h : app.analyzer = some an) :
    ∃ r, openAudio K env rate app = some r ∧ r.1.state = app.state ∧
      r.1.profile = app.profile ∧ r.1.analyzer = app.analyzer ∧
      r.1.dataSaver = app.dataSaver ∧ r.1.filterInstalled = app.filterInstalled ∧
      (∀ e ∈ r.2, e.fromStart = true) := by
  unfold openAudio
  by_cases h1 : app.state = State.RUNNING
  · by_cases h2 : app.playBack = none
    · by_cases h3 : env.audioDeviceFails = true
      · simp [h1, h2, h3, Effect.fromStart]
      · by_cases h4 : env.openPreciseFails = true
        · simp [h1, h2, h3, h4, h, Effect.fromStart]
        · simp only [h1, h2, h3, h4, h, if_true, if_false]
          simp only [Bool.false_eq_true, if_false]
          apply andThen_exists
          refine Exists.imp (fun r hr => ⟨hr.1, ?_⟩)
            (setAudioInspectorParams_spec _ _ _ _ _ an ?_)
          · obtain ⟨-, g1, g2, g3, g4, g5, g6, g7⟩ := hr
            refine ⟨g1, g2, g3, g4, g6, ?_⟩
            intro e he
            simp only [List.mem_append, List.mem_cons, List.mem_singleton, List.not_mem_nil,
              or_false] at he
            rcases he with (he | he) | he
            · simp [he, Effect.fromStart]
            · simp [he, Effect.fromStart]
            · exact g7 e he
          · rfl
    · simp [h1, h2]
  · simp [h1]

/-- `installDataSaver` keeps the session state, the profile, the widgets and
the audio handle, and keeps an analyzer present. -/
theorem installDataSaver_spec (fd : Int) (app : Application) :
    (installDataSaver fd app).1.state = app.state ∧
    (installDataSaver fd app).1.profile = app.profile ∧
    (installDataSaver fd app).1.ui = app.ui ∧
    (installDataSaver fd app).1.playBack = app.playBack ∧
    ((installDataSaver fd app).1.analyzer.isSome = app.analyzer.isSome) ∧
    (∀ e ∈ (installDataSaver fd app).2, e.fromStart = true) := by
  unfold installDataSaver
  cases hd : app.dataSaver <;> cases ha : app.analyzer <;> simp [ha]
  split_ifs <;> simp [Effect.fromStart]

/-- With an analyzer, the last segment of `startCapture` returns in `RUNNING`. -/
theorem startCaptureInstall_spec (K : Constants) (env : Env) (app : Application)
    (an : Analyzer) (h : app.analyzer = some an) :
    ∃ r, startCaptureInstall K env app = some r ∧ r.1.state = State.RUNNING ∧
      r.1.profile = app.profile ∧ r.1.analyzer.isSome = true ∧
      (∀ e ∈ r.2, e.fromStart = true) := by
  have fin : ∀ (a : Application) (t : List Effect), a.analyzer.isSome = true →
      a.profile = app.profile → (∀ e ∈ t, e.fromStart = true) →
      ∃ r, (if ({ a with state := State.RUNNING } : Application).ui.audioPanel.enabled = true then
          andThen (some ({ a with state := State.RUNNING },
              t ++ [Effect.connectAnalyzer, Effect.setState State.RUNNING]))
            (openAudio K env ({ a with state := State.RUNNING } : Application).ui.audioPanel.sampleRate)
          else some ({ a with state := State.RUNNING },
              t ++ [Effect.connectAnalyzer, Effect.setState State.RUNNING])) = some r ∧
        r.1.state = State.RUNNING ∧ r.1.profile = app.profile ∧ r.1.analyzer.isSome = true ∧
        (∀ e ∈ r.2, e.fromStart = true) := by
    intro a t ha hp ht
    obtain ⟨an2, han2⟩ := Option.isSome_iff_exists.mp ha
    have hc : ∀ e ∈ t ++ [Effect.connectAnalyzer, Effect.setState State.RUNNING],
        e.fromStart = true := by
      intro e he
      simp only [List.mem_append, List.mem_cons, List.mem_singleton, List.not_mem_nil,
        or_false] at he
      rcases he with he | he | he
      · exact ht e he
      · simp [he, Effect.fromStart]
      · simp [he, Effect.fromStart]
    split_ifs
    · apply andThen_exists
      refine Exists.imp (fun r hr => ⟨hr.1, ?_⟩) (openAudio_spec K env _ _ an2 ?_)
      · obtain ⟨-, g1, g2, g3, g4, g5, g6⟩ := hr
        refine ⟨g1, g2.trans hp, ?_, ?_⟩
        · rw [g3]; simp [han2]
        · intro e he
          rcases List.mem_append.mp he with he | he
          · exact hc e he
          · exact g6 e he
      · exact han2
    · exact ⟨_, rfl, rfl, hp, ha, hc⟩
  obtain ⟨i1, i2, i3, i4, i5, i6⟩ := installDataSaver_spec env.fd app
  unfold startCaptureInstall
  by_cases hr : app.ui.sourcePanel.recordState = true
  · by_cases hfd : env.fd = -1
    · simp only [hr, openCaptureFile, hfd, if_true, ne_eq, not_true_eq_false, if_false]
      exact fin app _ (by simp [h]) rfl (by simp [Effect.fromStart])
    · simp only [hr, openCaptureFile, hfd, if_true, if_false, ne_eq, not_false_eq_true,
        List.nil_append]
      exact fin _ _ (by rw [i5]; simp [h]) i2 i6
  · simp only [hr, Bool.false_eq_true, if_false]
    exact fin app _ (by simp [h]) rfl (by simp)

/-- The middle segment of `startCapture` returns; with a source defined and a
constructor that does not throw, it builds an analyzer and ends in `RUNNING`. -/
theorem startCaptureAllocate_spec (K : Constants) (env : Env) (app : Application) :
    ∃ r, startCaptureAllocate K env app = some r ∧ r.1.profile = app.profile ∧
      (∀ e ∈ r.2, startAction env e) ∧
      (app.profile.hasInstance = true → env.analyzerFails = false →
        r.1.state = State.RUNNING ∧ r.1.analyzer.isSome = true ∧ Effect.newAnalyzer ∈ r.2) := by
  unfold startCaptureAllocate
  by_cases hi : app.profile.hasInstance = false
  · simp [hi, startAction, Effect.fromStart]
  · by_cases hf : env.analyzerFails = true
    · simp [hi, hf, startAction, Effect.fromStart]
    · simp only [hi, hf, if_false, Bool.false_eq_true]
      apply andThen_exists
      refine Exists.imp (fun r hr => ⟨hr.1, ?_⟩) (startCaptureInstall_spec K env _ _ rfl)
      obtain ⟨-, g1, g2, g3, g4⟩ := hr
      refine ⟨g2, ?_, fun _ _ => ⟨g1, g3, by simp⟩⟩
      intro e he
      rcases List.mem_append.mp he with he | he
      · left
        simp only [List.mem_append, List.mem_cons, List.mem_singleton, List.not_mem_nil,
          or_false] at he
        rcases he with (((he | he) | he) | he | he) | he
        · simp [he, Effect.fromStart]
        · simp [he, Effect.fromStart]
        · split_ifs at he <;> simp_all [Effect.fromStart]
        · simp [he, Effect.fromStart]
        · simp [he, Effect.fromStart]
        · split_ifs at he <;> simp_all [Effect.fromStart]
      · exact Or.inl (g4 e he)

/-- `startCapture` always returns. Its actions are those of a start; the
profile is kept unless the answer is `Yes`; from `HALTED`, unless the dialog
is cancelled, with a source defined and a constructor that does not throw it
builds an analyzer and ends in `RUNNING`. -/
theorem startCapture_spec (K : Constants) (env : Env) (app : Application) :
    ∃ r, startCapture K env app = some r ∧
      (∀ e ∈ r.2, startAction env e) ∧
      (env.reply ≠ StandardButton.Yes → r.1.profile = app.profile) ∧
      (app.state = State.HALTED →
        ¬ (app.profile.type = SourceType.SDR ∧
          app.profile.sampleRate > K.SIGDIGGER_MAX_SAMPLE_RATE ∧
          env.reply = StandardButton.Cancel) →
        app.profile.hasInstance = true → env.analyzerFails = false →
        r.1.state = State.RUNNING ∧ r.1.analyzer.isSome = true ∧ Effect.newAnalyzer ∈ r.2) := by
  have box : ∀ (t : List Effect), (∀ e ∈ t, startAction env e) →
      ∀ e ∈ [Effect.messageBox "Sample rate too high"] ++ t, startAction env e := by
    intro t ht e he
    rcases List.mem_append.mp he with he | he
    · left
      rw [List.mem_singleton.mp he]
      rfl
    · exact ht e he
  unfold startCapture
  by_cases h : app.state = State.HALTED
  · by_cases ho : app.profile.type = SourceType.SDR ∧
        app.profile.sampleRate > K.SIGDIGGER_MAX_SAMPLE_RATE
    · simp only [h, ho, and_self, if_true]
      cases hr : env.reply with
      | Yes =>
        simp only
        apply andThen_exists
        refine Exists.imp (fun r hr => ⟨hr.1, ?_⟩) (startCaptureAllocate_spec K env _)
        obtain ⟨-, g1, g2, g3⟩ := hr
        refine ⟨box _ g2, fun hn => absurd rfl hn, fun _ _ hi hf => ?_⟩
        obtain ⟨k1, k2, k3⟩ := g3 hi hf
        exact ⟨k1, k2, List.mem_append_right _ k3⟩
      | Cancel =>
        refine ⟨_, rfl, ?_, fun _ => rfl, fun _ hc => absurd ⟨trivial, trivial, rfl⟩ hc⟩
        intro e he
        left
        rw [List.mem_singleton.mp he]
        rfl
      | No =>
        simp only
        apply andThen_exists
        refine Exists.imp (fun r hr => ⟨hr.1, ?_⟩) (startCaptureAllocate_spec K env _)
        obtain ⟨-, g1, g2, g3⟩ := hr
        refine ⟨box _ g2, fun _ => g1, fun _ _ hi hf => ?_⟩
        obtain ⟨k1, k2, k3⟩ := g3 hi hf
        exact ⟨k1, k2, List.mem_append_right _ k3⟩
    · simp only [h, ho, if_true, if_false]
      refine Exists.imp (fun r hr => ⟨hr.1, ?_⟩) (startCaptureAllocate_spec K env _)
      obtain ⟨-, g1, g2, g3⟩ := hr
      exact ⟨g2, fun _ => g1, fun _ _ hi hf => g3 hi hf⟩
  · simp [h]

/-- Outside `HALTED`, `startCapture` does nothing but reset `filterInstalled`. -/
theorem startCapture_not_HALTED (K : Constants) (env : Env) (app : Application)
    (h : app.state ≠ State.HALTED) :
    startCapture K env app = some ({ app with filterInstalled := false }, []) := by
  simp [startCapture, h]

/-- The controller `appRunning` is what `startCapture` reaches from `app0`. -/
theorem appRunning_reached :
    (run K0 app0 [Event.start env0]).map Prod.fst = some appRunning := by
  simp [run, step, startCapture, startCaptureAllocate, startCaptureInstall, andThen, openAudio,
    openCaptureFile, installDataSaver,
    setAudioInspectorParams, getAudioInspectorLo, getAudioInspectorBandwidth, app0, appRunning,
    ui0, env0, K0]
  norm_num

/-- In `HALTED`, `closeAudio` sends nothing to the analyzer. -/
theorem closeAudio_HALTED (app : Application) (h : app.state = State.HALTED) :
    closeAudio app = some ({ app with
      audioInspectorOpened := false
      audioSampleRate := 0
      audioInspHandle := 0
      playBack := none
      audioConfigured := false }, []) := by
  simp [closeAudio, h]

/-- The teardown of `onAnalyzerHalted` always completes, with these five
actions and this final state. -/
theorem haltedTeardown_eq (app : Application) :
    haltedTeardown app = some ({ app with
        analyzer := none
        dataSaver := none
        state := State.HALTED
        inspectors := []
        audioInspectorOpened := false
        audioSampleRate := 0
        audioInspHandle := 0
        playBack := none
        audioConfigured := false }, teardownTrace) := by
  simp [haltedTeardown, andThen_some, closeAudio, uninstallDataSaver, teardownTrace]

/-- End of stream: the same final state as the teardown of a halted event, and
`startCapture` is not called. -/
theorem onAnalyzerEos_eq (app : Application) :
    onAnalyzerEos app = some ({ app with
        analyzer := none
        dataSaver := none
        state := State.HALTED
        inspectors := []
        audioInspectorOpened := false
        audioSampleRate := 0
        audioInspHandle := 0
        playBack := none
        audioConfigured := false },
      [Effect.messageBox "End of stream", Effect.setState State.HALTED,
        Effect.detachAllInspectors, Effect.releaseAnalyzer, Effect.closeAudio,
        Effect.uninstallDataSaver]) := by
  simp [onAnalyzerEos, andThen_some, closeAudio, uninstallDataSaver]

/-- End of stream ends in the controller left by the teardown of a halted
event, in `HALTED`, without calling `startCapture`. -/
theorem onAnalyzerEos_teardown (app : Application) :
    ∃ a u, haltedTeardown app = some (a, teardownTrace) ∧ onAnalyzerEos app = some (a, u) ∧
      a.state = State.HALTED ∧ Effect.startCapture ∉ u := by
  refine ⟨_, _, haltedTeardown_eq app, onAnalyzerEos_eq app, rfl, ?_⟩
  simp

/-- An action of `startCapture` is neither a release step nor a nested call of
`startCapture`. -/
theorem startAction_not_teardown (env : Env) (e : Effect) (h : startAction env e) :
    e.isTeardownStep = false ∧ e ≠ Effect.startCapture := by
  rcases h with h | ⟨h, -⟩
  · cases e <;> simp_all [Effect.fromStart, Effect.isTeardownStep]
  · subst h
    simp [Effect.isTeardownStep]

/-! ## Handles in `HALTED` -/

/-- The middle segment of `startCapture` ends in `RUNNING` or keeps the writer
and the audio handle. -/
theorem startCaptureAllocate_frame (K : Constants) (env : Env) (app : Application)
    (r : Result) (h : startCaptureAllocate K env app = some r) :
    r.1.state = State.RUNNING ∨
      (r.1.dataSaver = app.dataSaver ∧ r.1.playBack = app.playBack ∧
        (r.1.state = app.state ∨ r.1.state = State.HALTED)) := by
  unfold startCaptureAllocate at h
  cases hi : app.profile.hasInstance with
  | false =>
    simp only [hi, if_true, Option.some.injEq] at h
    subst h
    exact Or.inr ⟨rfl, rfl, Or.inl rfl⟩
  | true =>
    cases hf : env.analyzerFails with
    | true =>
      simp only [hi, hf, if_true, if_false, Bool.true_eq_false, Option.some.injEq] at h
      subst h
      exact Or.inr ⟨rfl, rfl, Or.inr rfl⟩
    | false =>
      simp only [hi, hf, if_false, Bool.true_eq_false, Bool.false_eq_true] at h
      obtain ⟨r', h1, h2, -⟩ := startCaptureInstall_spec K env
        { app with
          analyzer := some { sampleRate := app.profile.sampleRate, baseBandFilters := 0 } }
        _ rfl
      rw [andThen_eq_some _ _ _ r' h1] at h
      simp only [Option.some.injEq] at h
      subst h
      exact Or.inl h2

/-- `startCapture` ends in `RUNNING` or keeps the writer, the audio handle and
the session state. -/
theorem startCapture_frame (K : Constants) (env : Env) (app : Application)
    (r : Result) (h : startCapture K env app = some r) :
    r.1.state = State.RUNNING ∨
      (r.1.dataSaver = app.dataSaver ∧ r.1.playBack = app.playBack ∧
        r.1.state = app.state) := by
  unfold startCapture at h
  by_cases hs : app.state = State.HALTED
  · have fin : ∀ (a : Application) (t : List Effect), a.dataSaver = app.dataSaver →
        a.playBack = app.playBack → a.state = State.HALTED →
        andThen (some (a, t)) (startCaptureAllocate K env) = some r →
        r.1.state = State.RUNNING ∨
          (r.1.dataSaver = app.dataSaver ∧ r.1.playBack = app.playBack ∧
            r.1.state = app.state) := by
      intro a t ha hp hst hr
      cases hq : startCaptureAllocate K env a with
      | none => simp [andThen_some, hq] at hr
      | some q =>
        rw [andThen_eq_some _ _ _ q hq] at hr
        simp only [Option.some.injEq] at hr
        subst hr
        rcases startCaptureAllocate_frame K env a q hq with h1 | ⟨h1, h3, h2⟩
        · exact Or.inl h1
        · refine Or.inr ⟨h1.trans ha, h3.trans hp, ?_⟩
          rw [hs]
          rcases h2 with h2 | h2
          · exact h2.trans hst
          · exact h2
    by_cases ho : app.profile.type = SourceType.SDR ∧
        app.profile.sampleRate > K.SIGDIGGER_MAX_SAMPLE_RATE
    · simp only [hs, ho, and_self, if_true] at h
      cases hr : env.reply with
      | Yes =>
        simp only [hr] at h
        refine fin _ _ ?_ ?_ ?_ h
        · rfl
        · rfl
        · rfl
      | Cancel =>
        simp only [hr, Option.some.injEq] at h
        subst h
        exact Or.inr ⟨rfl, rfl, hs.symm⟩
      | No =>
        simp only [hr] at h
        refine fin _ _ ?_ ?_ ?_ h
        · rfl
        · rfl
        · rfl
    · simp only [hs, ho, if_true, if_false] at h
      rcases startCaptureAllocate_frame K env _ r h with h1 | ⟨h1, h3, h2⟩
      · exact Or.inl h1
      · refine Or.inr ⟨h1, h3, ?_⟩
        rw [hs]
        rcases h2 with h2 | h2
        · exact h2
        · exact h2
  · simp only [hs, if_false, Option.some.injEq] at h
    subst h
    exact Or.inr ⟨rfl, rfl, rfl⟩

/-- Every call or signal keeps "no writer in `HALTED`". -/
theorem step_noWriterWhenHalted (K : Constants) (app : Application) (e : Event) (r : Result)
    (h : step K app e = some r) (hinv : NoWriterWhenHalted app) : NoWriterWhenHalted r.1 := by
  cases e with
  | start env =>
    rcases startCapture_frame K env app r h with h1 | ⟨h1, -, h2⟩
    · intro hh; rw [h1] at hh; exact absurd hh (by decide)
    · intro hh; rw [h1]; exact hinv (h2 ▸ hh)
  | stop =>
    simp only [step, stopCapture] at h
    by_cases hs : app.state = State.RUNNING
    · cases ha : app.analyzer with
      | none => simp [hs, ha] at h
      | some an =>
        simp only [hs, ha, if_true, Option.some.injEq] at h
        subst h
        intro hh
        cases hh
    · simp only [hs, if_false, Option.some.injEq] at h
      subst h
      exact hinv
  | restart =>
    simp only [step, restartCapture] at h
    by_cases hs : app.state = State.RUNNING
    · cases ha : app.analyzer with
      | none => simp [hs, ha] at h
      | some an =>
        simp only [hs, ha, if_true, Option.some.injEq] at h
        subst h
        intro hh
        cases hh
    · simp only [hs, if_false, Option.some.injEq] at h
      subst h
      exact hinv
  | halted env =>
    simp only [step, onAnalyzerHalted, haltedTeardown_eq, andThen_some] at h
    by_cases hs : app.state = State.RESTARTING
    · simp only [hs, decide_True, if_true, andThen_some, Option.map_map] at h
      obtain ⟨q, hq, rfl⟩ := Option.map_eq_some'.mp h
      rcases startCapture_frame K env _ q hq with h1 | ⟨h1, -, -⟩
      · intro hh
        simp only [Function.comp] at hh
        rw [h1] at hh
        exact absurd hh (by decide)
      · intro _
        exact h1
    · simp only [hs, decide_False, Bool.false_eq_true, if_false, Option.map_some',
        Option.some.injEq] at h
      subst h
      intro _
      rfl
  | eos =>
    simp only [step, onAnalyzerEos_eq, Option.some.injEq] at h
    subst h
    intro _
    rfl
  | readError =>
    simp only [step, onAnalyzerReadError, Option.some.injEq] at h
    subst h
    intro _
    rfl
  | toggleRecord checked env =>
    simp only [step, Option.some.injEq] at h
    subst h
    intro hh
    unfold onToggleRecord at hh ⊢
    by_cases hr : (setRecordState checked app).ui.sourcePanel.recordState = true
    · by_cases hs : (setRecordState checked app).state = State.RUNNING
      · exfalso
        obtain ⟨i1, -⟩ := installDataSaver_spec (openCaptureFile env).1 (setRecordState checked app)
        simp only [hr, hs, if_true] at hh
        split_ifs at hh
        · simp only [i1, hs] at hh
          exact absurd hh (by decide)
        · simp only [hs] at hh
          exact absurd hh (by decide)
      · simp only [hr, hs, if_true, if_false] at hh ⊢
        exact hinv hh
    · simp [hr, uninstallDataSaver]
  | saveError =>
    simp only [step, Option.some.injEq] at h
    subst h
    unfold onSaveError
    cases hd : app.dataSaver with
    | none => simpa [hd] using hinv
    | some w => intro _; simp [setRecordState, uninstallDataSaver]
  | saveSwamped =>
    simp only [step, Option.some.injEq] at h
    subst h
    unfold onSaveSwamped
    cases hd : app.dataSaver with
    | none => simpa [hd] using hinv
    | some w => intro _; simp [setRecordState, uninstallDataSaver]

/-- The writer half of the session invariant: along every run that starts in
a controller without writer in `HALTED`, no writer is attached in `HALTED`. -/
theorem run_noWriterWhenHalted (K : Constants) (es : List Event) (app : Application)
    (r : Result) (h : run K app es = some r) (hinv : NoWriterWhenHalted app) :
    NoWriterWhenHalted r.1 := by
  induction es generalizing app r with
  | nil =>
    simp only [run, Option.some.injEq] at h
    subst h
    exact hinv
  | cons e es ih =>
    simp only [run] at h
    cases hq : step K app e with
    | none => simp [andThen, hq] at h
    | some q =>
      obtain ⟨a, t⟩ := q
      cases hq2 : run K a es with
      | none => simp [andThen, hq, hq2] at h
      | some q2 =>
        simp only [andThen, hq, hq2, Option.some.injEq] at h
        subst h
        exact ih a q2 hq2 (step_noWriterWhenHalted K app e (a, t) hq hinv)

/-- Every call or signal other than a read error keeps "no audio handle in
`HALTED`". -/
theorem step_noAudioWhenHalted (K : Constants) (app : Application) (e : Event) (r : Result)
    (h : step K app e = some r) (he : e ≠ Event.readError) (hinv : NoAudioWhenHalted app) :
    NoAudioWhenHalted r.1 := by
  cases e with
  | start env =>
    rcases startCapture_frame K env app r h with h1 | ⟨-, h1, h2⟩
    · intro hh; rw [h1] at hh; exact absurd hh (by decide)
    · intro hh; rw [h1]; exact hinv (h2 ▸ hh)
  | stop =>
    simp only [step, stopCapture] at h
    by_cases hs : app.state = State.RUNNING
    · cases ha : app.analyzer with
      | none => simp [hs, ha] at h
      | some an =>
        simp only [hs, ha, if_true, Option.some.injEq] at h
        subst h
        intro hh
        cases hh
    · simp only [hs, if_false, Option.some.injEq] at h
      subst h
      exact hinv
  | restart =>
    simp only [step, restartCapture] at h
    by_cases hs : app.state = State.RUNNING
    · cases ha : app.analyzer with
      | none => simp [hs, ha] at h
      | some an =>
        simp only [hs, ha, if_true, Option.some.injEq] at h
        subst h
        intro hh
        cases hh
    · simp only [hs, if_false, Option.some.injEq] at h
      subst h
      exact hinv
  | halted env =>
    simp only [step, onAnalyzerHalted, haltedTeardown_eq, andThen_some] at h
    by_cases hs : app.state = State.RESTARTING
    · simp only [hs, decide_True, if_true, andThen_some, Option.map_map] at h
      obtain ⟨q, hq, rfl⟩ := Option.map_eq_some'.mp h
      rcases startCapture_frame K env _ q hq with h1 | ⟨-, h1, -⟩
      · intro hh
        simp only [Function.comp] at hh
        rw [h1] at hh
        exact absurd hh (by decide)
      · intro _
        exact h1
    · simp only [hs, decide_False, Bool.false_eq_true, if_false, Option.map_some',
        Option.some.injEq] at h
      subst h
      intro _
      rfl
  | eos =>
    simp only [step, onAnalyzerEos_eq, Option.some.injEq] at h
    subst h
    intro _
    rfl
  | readError => exact absurd rfl he
  | toggleRecord checked env =>
    simp only [step, Option.some.injEq] at h
    subst h
    intro hh
    unfold onToggleRecord at hh ⊢
    by_cases hr : (setRecordState checked app).ui.sourcePanel.recordState = true
    · by_cases hs : (setRecordState checked app).state = State.RUNNING
      · exfalso
        obtain ⟨i1, -⟩ := installDataSaver_spec (openCaptureFile env).1 (setRecordState checked app)
        simp only [hr, hs, if_true] at hh
        split_ifs at hh
        · simp only [i1, hs] at hh
          exact absurd hh (by decide)
        · simp only [hs] at hh
          exact absurd hh (by decide)
      · simp only [hr, hs, if_true, if_false] at hh ⊢
        exact hinv hh
    · simp only [hr, Bool.false_eq_true, if_false] at hh ⊢
      exact hinv hh
  | saveError =>
    simp only [step, Option.some.injEq] at h
    subst h
    unfold onSaveError
    cases hd : app.dataSaver with
    | none => simpa [hd] using hinv
    | some w => simpa [hd, setRecordState, uninstallDataSaver, NoAudioWhenHalted] using hinv
  | saveSwamped =>
    simp only [step, Option.some.injEq] at h
    subst h
    unfold onSaveSwamped
    cases hd : app.dataSaver with
    | none => simpa [hd] using hinv
    | some w => simpa [hd, setRecordState, uninstallDataSaver, NoAudioWhenHalted] using hinv

/-- The audio half of the session invariant: along every run without
read-error event that starts in a controller without audio handle in `HALTED`,
no audio handle is attached in `HALTED`. -/
theorem run_noAudioWhenHalted (K : Constants) (es : List Event) (app : Application)
    (r : Result) (h : run K app es = some r) (hes : ∀ e ∈ es, e ≠ Event.readError)
    (hinv : NoAudioWhenHalted app) : NoAudioWhenHalted r.1 := by
  induction es generalizing app r with
  | nil =>
    simp only [run, Option.some.injEq] at h
    subst h
    exact hinv
  | cons e es ih =>
    simp only [run] at h
    cases hq : step K app e with
    | none => simp [andThen, hq] at h
    | some q =>
      obtain ⟨a, t⟩ := q
      cases hq2 : run K a es with
      | none => simp [andThen, hq, hq2] at h
      | some q2 =>
        simp only [andThen, hq, hq2, Option.some.injEq] at h
        subst h
        exact ih a q2 hq2 (fun x hx => hes x (List.mem_cons_of_mem _ hx))
          (step_noAudioWhenHalted K app e (a, t) hq (hes e (List.mem_cons_self _ _)) hinv)

/-! ## Analyzer handle outside `HALTED` -/

/-- The middle segment of `startCapture` ends in `RUNNING` with an analyzer, or
keeps the analyzer handle. -/
theorem startCaptureAllocate_active (K : Constants) (env : Env) (app : Application)
    (r : Result) (h : startCaptureAllocate K env app = some r) :
    (r.1.state = State.RUNNING ∧ r.1.analyzer.isSome = true) ∨
      (r.1.analyzer = app.analyzer ∧ (r.1.state = app.state ∨ r.1.state = State.HALTED)) := by
  unfold startCaptureAllocate at h
  cases hi : app.profile.hasInstance with
  | false =>
    simp only [hi, if_true, Option.some.injEq] at h
    subst h
    exact Or.inr ⟨rfl, Or.inl rfl⟩
  | true =>
    cases hf : env.analyzerFails with
    | true =>
      simp only [hi, hf, if_true, if_false, Bool.true_eq_false, Option.some.injEq] at h
      subst h
      exact Or.inr ⟨rfl, Or.inr rfl⟩
    | false =>
      simp only [hi, hf, if_false, Bool.true_eq_false, Bool.false_eq_true] at h
      obtain ⟨r', h1, h2, -, h3, -⟩ := startCaptureInstall_spec K env
        { app with
          analyzer := some { sampleRate := app.profile.sampleRate, baseBandFilters := 0 } }
        _ rfl
      rw [andThen_eq_some _ _ _ r' h1] at h
      simp only [Option.some.injEq] at h
      subst h
      exact Or.inl ⟨h2, h3⟩

/-- `startCapture` ends in `RUNNING` with an analyzer, or keeps the analyzer
handle and the session state. -/
theorem startCapture_active (K : Constants) (env : Env) (app : Application)
    (r : Result) (h : startCapture K env app = some r) :
    (r.1.state = State.RUNNING ∧ r.1.analyzer.isSome = true) ∨
      (r.1.analyzer = app.analyzer ∧ r.1.state = app.state) := by
  unfold startCapture at h
  by_cases hs : app.state = State.HALTED
  · have fin : ∀ (a : Application) (t : List Effect), a.analyzer = app.analyzer →
        a.state = State.HALTED →
        andThen (some (a, t)) (startCaptureAllocate K env) = some r →
        (r.1.state = State.RUNNING ∧ r.1.analyzer.isSome = true) ∨
          (r.1.analyzer = app.analyzer ∧ r.1.state = app.state) := by
      intro a t ha hst hr
      cases hq : startCaptureAllocate K env a with
      | none => simp [andThen_some, hq] at hr
      | some q =>
        rw [andThen_eq_some _ _ _ q hq] at hr
        simp only [Option.some.injEq] at hr
        subst hr
        rcases startCaptureAllocate_active K env a q hq with h1 | ⟨h1, h2⟩
        · exact Or.inl h1
        · refine Or.inr ⟨h1.trans ha, ?_⟩
          rw [hs]
          rcases h2 with h2 | h2
          · exact h2.trans hst
          · exact h2
    by_cases ho : app.profile.type = SourceType.SDR ∧
        app.profile.sampleRate > K.SIGDIGGER_MAX_SAMPLE_RATE
    · simp only [hs, ho, and_self, if_true] at h
      cases hr : env.reply with
      | Yes =>
        simp only [hr] at h
        refine fin _ _ ?_ ?_ h
        · rfl
        · rfl
      | Cancel =>
        simp only [hr, Option.some.injEq] at h
        subst h
        exact Or.inr ⟨rfl, hs.symm⟩
      | No =>
        simp only [hr] at h
        refine fin _ _ ?_ ?_ h
        · rfl
        · rfl
    · simp only [hs, ho, if_true, if_false] at h
      rcases startCaptureAllocate_active K env _ r h with h1 | ⟨h1, h2⟩
      · exact Or.inl h1
      · refine Or.inr ⟨h1, ?_⟩
        rw [hs]
        rcases h2 with h2 | h2
        · exact h2
        · exact h2
  · simp only [hs, if_false, Option.some.injEq] at h
    subst h
    exact Or.inr ⟨rfl, rfl⟩

/-- Every call or signal keeps "an analyzer is held outside `HALTED`". -/
theorem step_analyzerWhenActive (K : Constants) (app : Application) (e : Event) (r : Result)
    (h : step K app e = some r) (hinv : AnalyzerWhenActive app) : AnalyzerWhenActive r.1 := by
  cases e with
  | start env =>
    rcases startCapture_active K env app r h with ⟨-, h1⟩ | ⟨h1, h2⟩
    · intro _; exact h1
    · intro hh; rw [h1]; exact hinv (h2 ▸ hh)
  | stop =>
    simp only [step, stopCapture] at h
    by_cases hs : app.state = State.RUNNING
    · cases ha : app.analyzer with
      | none => simp [hs, ha] at h
      | some an =>
        simp only [hs, ha, if_true, Option.some.injEq] at h
        subst h
        intro _
        rfl
    · simp only [hs, if_false, Option.some.injEq] at h
      subst h
      exact hinv
  | restart =>
    simp only [step, restartCapture] at h
    by_cases hs : app.state = State.RUNNING
    · cases ha : app.analyzer with
      | none => simp [hs, ha] at h
      | some an =>
        simp only [hs, ha, if_true, Option.some.injEq] at h
        subst h
        intro _
        rfl
    · simp only [hs, if_false, Option.some.injEq] at h
      subst h
      exact hinv
  | halted env =>
    simp only [step, onAnalyzerHalted, haltedTeardown_eq, andThen_some] at h
    by_cases hs : app.state = State.RESTARTING
    · simp only [hs, decide_True, if_true, andThen_some, Option.map_map] at h
      obtain ⟨q, hq, rfl⟩ := Option.map_eq_some'.mp h
      rcases startCapture_active K env _ q hq with ⟨-, h1⟩ | ⟨-, h1⟩
      · intro _
        exact h1
      · intro hh
        exact absurd h1 hh
    · simp only [hs, decide_False, Bool.false_eq_true, if_false, Option.map_some',
        Option.some.injEq] at h
      subst h
      intro hh
      exact absurd rfl hh
  | eos =>
    simp only [step, onAnalyzerEos_eq, Option.some.injEq] at h
    subst h
    intro hh
    exact absurd rfl hh
  | readError =>
    simp only [step, onAnalyzerReadError, Option.some.injEq] at h
    subst h
    intro hh
    exact absurd rfl hh
  | toggleRecord checked env =>
    simp only [step, Option.some.injEq] at h
    subst h
    have hinv2 : AnalyzerWhenActive (setRecordState checked app) := hinv
    generalize setRecordState checked app = a at hinv2 ⊢
    obtain ⟨i1, -, -, -, i5, -⟩ := installDataSaver_spec (openCaptureFile env).1 a
    unfold onToggleRecord
    by_cases hr : a.ui.sourcePanel.recordState = true
    · by_cases hs : a.state = State.RUNNING
      · simp only [hr, hs, if_true]
        split_ifs
        · intro hh
          simp only [i1] at hh
          simp only [i5]
          exact hinv2 hh
        · exact hinv2
      · simp only [hr, hs, if_true, if_false]
        exact hinv2
    · simp only [hr, Bool.false_eq_true, if_false]
      exact hinv2
  | saveError =>
    simp only [step, Option.some.injEq] at h
    subst h
    unfold onSaveError
    cases hd : app.dataSaver with
    | none => simpa [hd] using hinv
    | some w => simpa [hd, setRecordState, uninstallDataSaver, AnalyzerWhenActive] using hinv
  | saveSwamped =>
    simp only [step, Option.some.injEq] at h
    subst h
    unfold onSaveSwamped
    cases hd : app.dataSaver with
    | none => simpa [hd] using hinv
    | some w => simpa [hd, setRecordState, uninstallDataSaver, AnalyzerWhenActive] using hinv

/-- Along every run that starts in a controller holding an analyzer outside
`HALTED` (the initial `HALTED` controller is one), an analyzer is held
whenever the state is not `HALTED`. -/
theorem run_analyzerWhenActive (K : Constants) (es : List Event) (app : Application)
    (r : Result) (h : run K app es = some r) (hinv : AnalyzerWhenActive app) :
    AnalyzerWhenActive r.1 := by
  induction es generalizing app r with
  | nil =>
    simp only [run, Option.some.injEq] at h
    subst h
    exact hinv
  | cons e es ih =>
    simp only [run] at h
    cases hq : step K app e with
    | none => simp [andThen, hq] at h
    | some q =>
      obtain ⟨a, t⟩ := q
      cases hq2 : run K a es with
      | none => simp [andThen, hq, hq2] at h
      | some q2 =>
        simp only [andThen, hq, hq2, Option.some.injEq] at h
        subst h
        exact ih a q2 hq2 (step_analyzerWhenActive K app e (a, t) hq hinv)

/-! ## Facts about the spectrum transform -/

/-- State of the first loop after `k` iterations. -/
theorem logLoop_inv {α : Type} [LinearOrderedField α] (log10f : α → α) (data : List α) (k : Nat) (hk : k ≤ data.length) :
    ((List.range k).foldl (spectrumLogStep log10f) (data, 0)).1.length = data.length ∧
    (∀ j, ((List.range k).foldl (spectrumLogStep log10f) (data, 0)).1[j]?
      = if j < k then (data[j]?).map log10f else data[j]?) ∧
    ((List.range k).foldl (spectrumLogStep log10f) (data, 0)).2
      = runningMax ((data.take k).map log10f) := by
  induction k with
  | zero => simp [runningMax]
  | succ k ih =>
    obtain ⟨h1, h2, h3⟩ := ih (Nat.le_of_succ_le hk)
    have hk' : k < data.length := hk
    rw [List.range_succ, List.foldl_append]
    simp only [List.foldl_cons, List.foldl_nil]
    generalize (List.range k).foldl (spectrumLogStep log10f) (data, 0) = s at h1 h2 h3
    obtain ⟨d, m⟩ := s
    simp only at h1 h2 h3
    have hdk : d[k]? = data[k]? := by rw [h2 k]; simp
    have hdata : data[k]? = some data[k] := List.getElem?_eq_getElem hk'
    refine ⟨by simp [spectrumLogStep, h1], ?_, ?_⟩
    · intro j
      simp only [spectrumLogStep, List.getD_eq_getElem?_getD, List.getElem?_set, h1, hdk, hdata]
      by_cases hj : k = j
      · subst hj
        simp [hk']
      · have : (j < k + 1) ↔ j < k := by omega
        simp [hj, h2 j, this]
    · simp only [spectrumLogStep, List.getD_eq_getElem?_getD, List.getElem?_set, h1, hdk, hdata,
        hk', if_true, Option.getD_some]
      rw [h3]
      simp only [runningMax, List.map_take]
      rw [List.take_succ, List.foldl_append]
      simp [hdata]

/-- The first loop replaces every sample by its logarithm and leaves the
running maximum of the log values, started at 0. -/
theorem logLoop_eq {α : Type} [LinearOrderedField α] (log10f : α → α) (data : List α) :
    (List.range data.length).foldl (spectrumLogStep log10f) (data, 0)
      = (data.map log10f, runningMax (data.map log10f)) := by
  obtain ⟨h1, h2, h3⟩ := logLoop_inv log10f data data.length le_rfl
  refine Prod.ext ?_ ?_
  · apply List.ext_getElem?
    intro j
    rw [h2 j]
    by_cases hj : j < data.length
    · simp [hj]
    · simp [hj, List.getElem?_eq_none (not_lt.mp hj)]
  · simpa using h3

/-- A maximum taken before a fold of `max` can be taken after it. -/
theorem foldl_max_assoc {α : Type} [LinearOrderedField α] (a x : α) (xs : List α) :
    xs.foldl max (max a x) = max a (xs.foldl max x) := by
  induction xs generalizing x with
  | nil => rfl
  | cons y ys ih => simp only [List.foldl_cons]; rw [max_assoc, ih]

/-- The running maximum started at 0 is `max(0, M)`. -/
theorem runningMax_eq {α : Type} [LinearOrderedField α] (L : List α) : runningMax L = max 0 (frameMax L) := by
  have hf : (fun (m v : α) => if m < v then v else m) = max := by
    funext m v
    by_cases h : m < v
    · simp [h, max_eq_right (le_of_lt h)]
    · simp [h, max_eq_left (not_lt.mp h)]
  unfold runningMax
  rw [hf]
  cases L with
  | nil => simp [frameMax]
  | cons x xs => simp only [List.foldl_cons, frameMax]; exact foldl_max_assoc 0 x xs

/-- State of the second loop after `k` iterations. -/
theorem swapLoop_inv {α : Type} [LinearOrderedField α] (L : List α) (C : α) (k : Nat) (hk : k ≤ L.length / 2) :
    ((List.range k).foldl (spectrumSwapStep L.length C) (L, L.length / 2)).1.length
      = L.length ∧
    ((List.range k).foldl (spectrumSwapStep L.length C) (L, L.length / 2)).2
      = (if L.length / 2 + k = L.length then 0 else L.length / 2 + k) ∧
    (∀ j, ((List.range k).foldl (spectrumSwapStep L.length C) (L, L.length / 2)).1[j]?
      = if j < k then (L[j + L.length / 2]?).map (fun v => v - C)
        else if L.length / 2 ≤ j ∧ j < L.length / 2 + k then
          (L[j - L.length / 2]?).map (fun v => v - C)
        else L[j]?) := by
  induction k with
  | zero =>
    refine ⟨rfl, ?_, ?_⟩
    · simp only [List.range_zero, List.foldl_nil, add_zero]
      split_ifs with h
      · omega
      · rfl
    · intro j
      rw [if_neg (by omega), if_neg (by omega)]
      rfl
  | succ k ih =>
    obtain ⟨h1, h2, h3⟩ := ih (Nat.le_of_succ_le hk)
    have hk' : k < L.length / 2 := hk
    have hN : L.length / 2 + k < L.length := by omega
    rw [List.range_succ, List.foldl_append]
    simp only [List.foldl_cons, List.foldl_nil]
    generalize (List.range k).foldl (spectrumSwapStep L.length C) (L, L.length / 2) = s
      at h1 h2 h3
    obtain ⟨d, p⟩ := s
    simp only at h1 h2 h3
    have hp : p = L.length / 2 + k := by rw [h2, if_neg (by omega)]
    subst hp
    have hdk : d[k]? = some L[k] := by
      rw [h3 k, if_neg (by omega), if_neg (by omega)]
      exact List.getElem?_eq_getElem (by omega)
    have hdp : d[L.length / 2 + k]? = some L[L.length / 2 + k] := by
      rw [h3, if_neg (by omega), if_neg (by omega)]
      exact List.getElem?_eq_getElem hN
    refine ⟨by simp [spectrumSwapStep, h1], ?_, ?_⟩
    · simp only [spectrumSwapStep]
      rw [show L.length / 2 + (k + 1) = L.length / 2 + k + 1 by omega]
    · intro j
      simp only [spectrumSwapStep, List.getD_eq_getElem?_getD, List.getElem?_set, h1, hdk, hdp,
        List.length_set, Option.getD_some, hN, if_true]
      by_cases hj1 : L.length / 2 + k = j
      · subst hj1
        have a1 : ¬ (L.length / 2 + k < k + 1) := by omega
        have a2 : L.length / 2 ≤ L.length / 2 + k ∧
            L.length / 2 + k < L.length / 2 + (k + 1) := by omega
        have a3 : L.length / 2 + k - L.length / 2 = k := by omega
        have a4 : L[k]? = some L[k] := List.getElem?_eq_getElem (by omega)
        simp only [a1, a2, a3, a4, if_false, if_true, and_self, Option.map_some']
      · simp only [hj1, if_false]
        by_cases hj2 : k = j
        · subst hj2
          have a1 : k < k + 1 := by omega
          have a3 : k + L.length / 2 = L.length / 2 + k := by omega
          have a4 : L[L.length / 2 + k]? = some L[L.length / 2 + k] :=
            List.getElem?_eq_getElem hN
          have a5 : k < L.length := by omega
          simp only [a1, a3, a4, a5, if_true, Option.map_some']
        · simp only [hj2, if_false]
          rw [h3 j]
          have e1 : (j < k + 1) ↔ j < k := by omega
          have e2 : (L.length / 2 ≤ j ∧ j < L.length / 2 + (k + 1))
              ↔ (L.length / 2 ≤ j ∧ j < L.length / 2 + k) := by omega
          simp only [e1, e2]

/-- Every entry of the transformed frame. The entries from `2·(N/2)` on, that
is the last one of a frame of odd length, keep their log value. -/
theorem spectrumTransform_getElem_opt {α : Type} [LinearOrderedField α] (log10f : α → α) (data : List α) (j : Nat) :
    (spectrumTransform log10f data).length = data.length ∧
    (spectrumTransform log10f data)[j]?
      = if j < data.length / 2 then
          (data[j + data.length / 2]?).map
            (fun v => log10f v - (max 0 (frameMax (data.map log10f)) + 5))
        else if j < 2 * (data.length / 2) then
          (data[j - data.length / 2]?).map
            (fun v => log10f v - (max 0 (frameMax (data.map log10f)) + 5))
        else (data[j]?).map log10f := by
  unfold spectrumTransform
  simp only [logLoop_eq, runningMax_eq]
  have hl : data.length = (data.map log10f).length := by simp
  have key := swapLoop_inv (data.map log10f) (max 0 (frameMax (data.map log10f)) + 5)
    ((data.map log10f).length / 2) le_rfl
  rw [← hl] at key
  obtain ⟨h1, -, h3⟩ := key
  refine ⟨h1, ?_⟩
  rw [h3 j]
  by_cases c1 : j < data.length / 2
  · simp only [c1, if_true, List.getElem?_map, Option.map_map]
    rfl
  · have e : (data.length / 2 ≤ j ∧ j < data.length / 2 + data.length / 2)
        ↔ j < 2 * (data.length / 2) := by omega
    simp only [c1, if_false, e, List.getElem?_map, Option.map_map]
    rfl

/-- A fold of `max` dominates its start value and every element. -/
theorem le_foldl_max {α : Type} [LinearOrderedField α] (xs : List α) (a : α) :
    a ≤ xs.foldl max a ∧ ∀ v ∈ xs, v ≤ xs.foldl max a := by
  induction xs generalizing a with
  | nil => simp
  | cons y ys ih =>
    simp only [List.foldl_cons, List.mem_cons]
    obtain ⟨h1, h2⟩ := ih (max a y)
    refine ⟨le_trans (le_max_left a y) h1, ?_⟩
    rintro v (rfl | hv)
    · exact le_trans (le_max_right a v) h1
    · exact h2 v hv

/-- Every value of a frame is at most `frameMax`. -/
theorem le_frameMax {α : Type} [LinearOrderedField α] (L : List α) (v : α) (hv : v ∈ L) :
    v ≤ frameMax L := by
  cases L with
  | nil => simp at hv
  | cons x xs =>
    obtain ⟨h1, h2⟩ := le_foldl_max xs x
    rcases List.mem_cons.mp hv with rfl | hv
    · exact h1
    · exact h2 v hv

/-- A fold of `max` is its start value or one of the elements. -/
theorem foldl_max_mem {α : Type} [LinearOrderedField α] (xs : List α) (a : α) :
    xs.foldl max a = a ∨ xs.foldl max a ∈ xs := by
  induction xs generalizing a with
  | nil => simp
  | cons y ys ih =>
    simp only [List.foldl_cons, List.mem_cons]
    rcases ih (max a y) with h | h
    · rw [h]
      rcases max_choice a y with h' | h'
      · exact Or.inl h'
      · exact Or.inr (Or.inl h')
    · exact Or.inr (Or.inr h)

/-- On a frame that is not empty, `frameMax` is one of its values. -/
theorem frameMax_mem {α : Type} [LinearOrderedField α] (L : List α) (h : L ≠ []) :
    frameMax L ∈ L := by
  cases L with
  | nil => exact absurd rfl h
  | cons x xs =>
    rcases foldl_max_mem xs x with h' | h'
    · simp [frameMax, h']
    · simp [frameMax, h']

/-- The entries below `2·(N/2)` of the transformed frame. -/
theorem spectrumTransform_getD {α : Type} [LinearOrderedField α] (log10f : α → α)
    (data : List α) (i : Nat) (hi : i < 2 * (data.length / 2)) :
    (spectrumTransform log10f data).getD i 0
      = if i < data.length / 2 then
          (data.map log10f).getD (i + data.length / 2) 0
            - (max 0 (frameMax (data.map log10f)) + 5)
        else
          (data.map log10f).getD (i - data.length / 2) 0
            - (max 0 (frameMax (data.map log10f)) + 5) := by
  obtain ⟨-, h⟩ := spectrumTransform_getElem_opt log10f data i
  simp only [List.getD_eq_getElem?_getD, h, List.getElem?_map]
  by_cases c1 : i < data.length / 2
  · have : i + data.length / 2 < data.length := by omega
    simp [c1, List.getElem?_eq_getElem this]
  · have : i - data.length / 2 < data.length := by omega
    simp [c1, hi, List.getElem?_eq_getElem this]

/-- Values of the base-10 logarithm used by the evaluations. -/
theorem logb_tenth : Real.logb 10 (1 / 10) = -1 := by
  rw [one_div, Real.logb_inv, Real.logb_self_eq_one (by norm_num)]

theorem logb_hundredth : Real.logb 10 (1 / 100) = -2 := by
  rw [one_div, Real.logb_inv, show (100 : ℝ) = (10 : ℝ) ^ (2 : ℕ) by norm_num, Real.logb_pow,
    Real.logb_self_eq_one (by norm_num)]
  norm_num

theorem logb_hundred : Real.logb 10 100 = 2 := by
  rw [show (100 : ℝ) = (10 : ℝ) ^ (2 : ℕ) by norm_num, Real.logb_pow,
    Real.logb_self_eq_one (by norm_num)]
  norm_num

theorem logb_thousand : Real.logb 10 1000 = 3 := by
  rw [show (1000 : ℝ) = (10 : ℝ) ^ (3 : ℕ) by norm_num, Real.logb_pow,
    Real.logb_self_eq_one (by norm_num)]
  norm_num

theorem logb_ten : Real.logb 10 10 = 1 := Real.logb_self_eq_one (by norm_num)

/-- On a frame of even length the transform is the half-frame swap with the
ceiling `max(0, M) + 5`. -/
theorem spectrumTransform_eq_halfSwap {α : Type} [LinearOrderedField α] (log10f : α → α)
    (data : List α) (hN : data.length % 2 = 0) :
    spectrumTransform log10f data
      = halfSwap (data.map log10f) (max 0 (frameMax (data.map log10f)) + 5) := by
  apply List.ext_getElem?
  intro j
  obtain ⟨-, h⟩ := spectrumTransform_getElem_opt log10f data j
  rw [h]
  unfold halfSwap
  simp only [List.getElem?_map, List.length_map, List.getD_eq_getElem?_getD]
  by_cases hj : j < data.length
  · rw [List.getElem?_range hj]
    by_cases c1 : j < data.length / 2
    · have : j + data.length / 2 < data.length := by omega
      simp [c1, List.getElem?_eq_getElem this]
    · have c2 : j < 2 * (data.length / 2) := by omega
      have : j - data.length / 2 < data.length := by omega
      simp [c1, c2, List.getElem?_eq_getElem this]
  · have c1 : ¬ j < data.length / 2 := by omega
    have c2 : ¬ j < 2 * (data.length / 2) := by omega
    have c3 : data.length ≤ j := by omega
    have c4 : (List.range data.length)[j]? = none :=
      List.getElem?_eq_none (by simpa using c3)
    simp [c1, c2, c4, List.getElem?_eq_none c3]

/-! ## The claims -/

/-- Claim C1, evaluated on the code: from the initial `HALTED` controller
`app0`, a start with audio enabled followed by a read-error event ends in
`HALTED` with the audio playback handle still attached (the writer is
released). The handler `onAnalyzerReadError` does not call `closeAudio`. -/
theorem readError_reaches_HALTED_with_playBack :
    app0.state = State.HALTED ∧ app0.analyzer = none ∧ app0.dataSaver = none ∧
    app0.playBack = none ∧
    (run K0 app0 [Event.start env0, Event.readError]).map
        (fun r => (r.1.state, r.1.playBack, r.1.dataSaver))
      = some (State.HALTED, some { sampleRate := 44100 }, none) := by
  decide

/-- Claim C2, evaluated on the code: in the `RUNNING` controller `appRunning`,
where the filter hook is installed, `startCapture` returns with the flag
`filterInstalled` cleared; the session state, the handles and the analyzer are
untouched and no action is performed. -/
theorem startCapture_RUNNING_clears_filterInstalled :
    appRunning.state = State.RUNNING ∧ appRunning.filterInstalled = true ∧
    startCapture K0 env0 appRunning = some ({ appRunning with filterInstalled := false }, []) ∧
    ({ appRunning with filterInstalled := false } : Application) ≠ appRunning := by
  refine ⟨rfl, rfl, startCapture_not_HALTED K0 env0 appRunning (by decide), ?_⟩
  intro h
  have := congrArg Application.filterInstalled h
  simp [appRunning] at this

/-- Claim C3, as stated, fails on two frames, with the real base-10 logarithm
for `log10f`. On `[1/10, 1/100]` every log value is negative (`L = [-1, -2]`,
`M = -1`): the code subtracts the ceiling 5 and forwards `[-7, -6]`, where the
claim gives `[-6, -5]`. On the odd frame `[10, 100, 1000]` (`L = [1, 2, 3]`,
`M = 3`) the second loop stops after one exchange and the last sample stays at
its log value 3, where the claim gives `-6`. -/
theorem spectrum_differs_from_reference :
    (onInspectorMessageSpectrum (Real.logb 10) appInspecting 1 [1 / 10, 1 / 100]
        = some [-7, -6] ∧
      spectrumReference (Real.logb 10) [1 / 10, 1 / 100] = [-6, -5]) ∧
    (onInspectorMessageSpectrum (Real.logb 10) appInspecting 1 [10, 100, 1000]
        = some [-6, -7, 3] ∧
      spectrumReference (Real.logb 10) [10, 100, 1000] = [-6, -7, -6]) := by
  have hi : 1 ∈ appInspecting.inspectors := List.mem_singleton.mpr rfl
  refine ⟨⟨?_, ?_⟩, ?_, ?_⟩
  · simp [onInspectorMessageSpectrum, hi, spectrumTransform, spectrumLogStep, spectrumSwapStep,
      List.range_succ, logb_tenth, logb_hundred]
    norm_num
  · simp [spectrumReference, halfSwap, frameMax, List.range_succ, logb_tenth, logb_hundred]
    norm_num
  · simp [onInspectorMessageSpectrum, hi, spectrumTransform, spectrumLogStep, spectrumSwapStep,
      List.range_succ, logb_ten, logb_hundred, logb_thousand]
    norm_num
  · simp [spectrumReference, halfSwap, frameMax, List.range_succ, logb_ten, logb_hundred,
      logb_thousand]
    norm_num

/-- Claim C3, amended: for a frame of length `N` forwarded to a registered
inspector, with `L[i] = log10f(d[i])`, `M` the maximum of `L` and the ceiling
`max(0, M) + 5`, the output has length `N`, `output[i] = L[i + N/2] − ceiling`
for `i < N/2` and `output[i] = L[i − N/2] − ceiling` for `N/2 ≤ i < 2·(N/2)`,
that is for every `i ≥ N/2` when `N` is even. When `N` is even and some log
value is at least 0, the ceiling is `M + 5` and the output is the reference
transform of the spec. -/
theorem spectrum_half_swap {α : Type} [LinearOrderedField α] (log10f : α → α)
    (app : Application) (inspectorId : Nat) (data : List α)
    (hi : inspectorId ∈ app.inspectors) :
    ∃ output, onInspectorMessageSpectrum log10f app inspectorId data = some output ∧
      output.length = data.length ∧
      (∀ i, i < data.length / 2 →
        output.getD i 0 = (data.map log10f).getD (i + data.length / 2) 0
          - (max 0 (frameMax (data.map log10f)) + 5)) ∧
      (∀ i, data.length / 2 ≤ i → i < 2 * (data.length / 2) →
        output.getD i 0 = (data.map log10f).getD (i - data.length / 2) 0
          - (max 0 (frameMax (data.map log10f)) + 5)) ∧
      (data.length % 2 = 0 → (∃ v ∈ data.map log10f, 0 ≤ v) →
        max 0 (frameMax (data.map log10f)) = frameMax (data.map log10f) ∧
        output = spectrumReference log10f data) := by
  refine ⟨spectrumTransform log10f data, ?_, (spectrumTransform_getElem_opt log10f data 0).1,
    ?_, ?_, ?_⟩
  · simp [onInspectorMessageSpectrum, hi]
  · intro i h1
    rw [spectrumTransform_getD log10f data i (by omega), if_pos h1]
  · intro i h1 h2
    rw [spectrumTransform_getD log10f data i h2, if_neg (by omega)]
  · rintro hN ⟨v, hv, h0⟩
    have hm : max 0 (frameMax (data.map log10f)) = frameMax (data.map log10f) :=
      max_eq_right (le_trans h0 (le_frameMax _ v hv))
    refine ⟨hm, ?_⟩
    rw [spectrumTransform_eq_halfSwap log10f data hN, hm]
    rfl

/-- Witness of `spectrum_half_swap`: the frame `[10, 100, 1/10, 1/100]`, sent
to inspector 1 of `appInspecting`, with the real base-10 logarithm. -/
theorem spectrum_half_swap_witness :
    1 ∈ appInspecting.inspectors ∧
    ∃ output, onInspectorMessageSpectrum (Real.logb 10) appInspecting 1
        [10, 100, 1 / 10, 1 / 100] = some output ∧
      output.length = [(10 : ℝ), 100, 1 / 10, 1 / 100].length ∧
      (∀ i, i < [(10 : ℝ), 100, 1 / 10, 1 / 100].length / 2 →
        output.getD i 0
          = ([(10 : ℝ), 100, 1 / 10, 1 / 100].map (Real.logb 10)).getD
              (i + [(10 : ℝ), 100, 1 / 10, 1 / 100].length / 2) 0
            - (max 0 (frameMax ([(10 : ℝ), 100, 1 / 10, 1 / 100].map (Real.logb 10))) + 5)) ∧
      (∀ i, [(10 : ℝ), 100, 1 / 10, 1 / 100].length / 2 ≤ i →
        i < 2 * ([(10 : ℝ), 100, 1 / 10, 1 / 100].length / 2) →
        output.getD i 0
          = ([(10 : ℝ), 100, 1 / 10, 1 / 100].map (Real.logb 10)).getD
              (i - [(10 : ℝ), 100, 1 / 10, 1 / 100].length / 2) 0
            - (max 0 (frameMax ([(10 : ℝ), 100, 1 / 10, 1 / 100].map (Real.logb 10))) + 5)) ∧
      ([(10 : ℝ), 100, 1 / 10, 1 / 100].length % 2 = 0 →
        (∃ v ∈ [(10 : ℝ), 100, 1 / 10, 1 / 100].map (Real.logb 10), 0 ≤ v) →
        max 0 (frameMax ([(10 : ℝ), 100, 1 / 10, 1 / 100].map (Real.logb 10)))
          = frameMax ([(10 : ℝ), 100, 1 / 10, 1 / 100].map (Real.logb 10)) ∧
        output = spectrumReference (Real.logb 10) [10, 100, 1 / 10, 1 / 100]) :=
  ⟨List.mem_singleton.mpr rfl,
    spectrum_half_swap (Real.logb 10) appInspecting 1 [10, 100, 1 / 10, 1 / 100]
      (List.mem_singleton.mpr rfl)⟩

/-- Claim C4, evaluated on the code: start with recording, a second
`startCapture` while `RUNNING`, record off, record on. One analyzer is built
and never released, and the baseband filter is registered on it twice. -/
theorem second_start_reinstalls_filter :
    (run K0 app0 [Event.start env0, Event.start env0, Event.toggleRecord false env0,
        Event.toggleRecord true env0]).map
        (fun r => (r.1.analyzer, r.2.count Effect.newAnalyzer,
          r.2.count Effect.releaseAnalyzer,
          r.2.count (Effect.analyzer AnalyzerCall.registerBaseBandFilter)))
      = some (some { sampleRate := 1000000, baseBandFilters := 2 }, 1, 0, 2) := by
  decide

/-- Claim C5, evaluated on the code: on the `RUNNING` controller
`appInspecting` (audio open, one inspector tab) the read-error handler leaves
the inspector registered and the audio handle attached, where the teardown of
a halted event and the end-of-stream handler detach and close both. -/
theorem readError_skips_audio_and_inspectors :
    (onAnalyzerReadError appInspecting).map
        (fun r => (r.1.state, r.1.analyzer, r.1.dataSaver, r.1.inspectors, r.1.playBack))
      = some (State.HALTED, none, none, [1], some { sampleRate := 44100 }) ∧
    (haltedTeardown appInspecting).map
        (fun r => (r.1.state, r.1.analyzer, r.1.dataSaver, r.1.inspectors, r.1.playBack))
      = some (State.HALTED, none, none, [], none) ∧
    (onAnalyzerEos appInspecting).map
        (fun r => (r.1.state, r.1.analyzer, r.1.dataSaver, r.1.inspectors, r.1.playBack))
      = some (State.HALTED, none, none, [], none) :=
  ⟨rfl, rfl, rfl⟩

/-- Claim C6, as stated, fails: with an SDR profile above the ceiling and the
answer `No` (an answer other than `Yes`), `startCapture` builds the analyzer at
the unclamped rate and the session is `RUNNING`. -/
theorem startCapture_No_builds_analyzer :
    appOver.state = State.HALTED ∧ appOver.profile.type = SourceType.SDR ∧
    appOver.profile.sampleRate > K0.SIGDIGGER_MAX_SAMPLE_RATE ∧
    env0.reply ≠ StandardButton.Yes ∧
    (startCapture K0 env0 appOver).map (fun r => (r.1.state, r.1.analyzer))
      = some (State.RUNNING, some { sampleRate := 5000000, baseBandFilters := 1 }) := by
  decide

/-- Claim C6, amended: in `HALTED` with an SDR profile above the ceiling, the
answer `Cancel` makes `startCapture` return after the dialog: the state is
`HALTED`, the analyzer handle is as before, no analyzer is built and the
profile is unchanged. The answer `No` keeps the sample rate of the profile and
lets the start proceed: with a source defined and a constructor that does not
throw, an analyzer is built and the session is `RUNNING`. -/
theorem startCapture_over_ceiling_declined (K : Constants) (env : Env) (app : Application)
    (h : app.state = State.HALTED) (hs : app.profile.type = SourceType.SDR)
    (ho : app.profile.sampleRate > K.SIGDIGGER_MAX_SAMPLE_RATE) :
    (env.reply = StandardButton.Cancel →
      ∃ r, startCapture K env app = some r ∧ r.1.state = State.HALTED ∧
        r.1.analyzer = app.analyzer ∧ Effect.newAnalyzer ∉ r.2 ∧
        r.1.profile = app.profile ∧
        r = ({ app with filterInstalled := false }, [Effect.messageBox "Sample rate too high"])) ∧
    (env.reply = StandardButton.No →
      ∃ r, startCapture K env app = some r ∧
        r.1.profile.sampleRate = app.profile.sampleRate ∧
        (app.profile.hasInstance = true → env.analyzerFails = false →
          r.1.state = State.RUNNING ∧ r.1.analyzer.isSome = true ∧
            Effect.newAnalyzer ∈ r.2)) := by
  constructor
  · intro hr
    refine ⟨_, ?_, ?_, ?_, ?_, ?_, rfl⟩
    · simp [startCapture, h, hs, ho, hr]
    · exact h
    · rfl
    · simp
    · rfl
  · intro hr
    obtain ⟨r, h1, -, h3, h4⟩ := startCapture_spec K env app
    refine ⟨r, h1, ?_, fun hi hf => h4 h ?_ hi hf⟩
    · rw [h3 (by rw [hr]; decide)]
    · rintro ⟨-, -, hc⟩
      rw [hr] at hc
      exact absurd hc (by decide)

/-- Witness of `startCapture_over_ceiling_declined`: the profile of `appOver`
is above the ceiling of `K0`, and the answer is `Cancel`. -/
theorem startCapture_over_ceiling_declined_witness :
    appOver.state = State.HALTED ∧ appOver.profile.type = SourceType.SDR ∧
    appOver.profile.sampleRate > K0.SIGDIGGER_MAX_SAMPLE_RATE ∧
    ∃ r, startCapture K0 envCancel appOver = some r ∧ r.1.state = State.HALTED ∧
      r.1.analyzer = appOver.analyzer ∧ Effect.newAnalyzer ∉ r.2 ∧
      r.1.profile = appOver.profile ∧
      r = ({ appOver with filterInstalled := false },
        [Effect.messageBox "Sample rate too high"]) :=
  ⟨rfl, rfl, by decide,
    (startCapture_over_ceiling_declined K0 envCancel appOver rfl rfl (by decide)).1 rfl⟩

/-- Claim C7: on a halted event in `RESTARTING`, the five teardown actions come
first and leave a `HALTED` controller without analyzer, writer, inspectors or
audio handle; then `startCapture` is called on that controller, exactly once,
and what follows is the trace of that call, which holds no release step and no
further call of `startCapture` (a `setState(HALTED)` appears in it only when
the analyzer constructor throws). In any other state the handler is the
teardown alone: `startCapture` is not called and the final state is `HALTED`. -/
theorem onAnalyzerHalted_teardown_then_start (K : Constants) (env : Env) (app : Application) :
    (app.state = State.RESTARTING →
      ∃ a s u, haltedTeardown app = some (a, teardownTrace) ∧
        a.state = State.HALTED ∧ a.analyzer = none ∧ a.dataSaver = none ∧
        a.inspectors = [] ∧ a.playBack = none ∧
        startCapture K env a = some (s, u) ∧
        onAnalyzerHalted K env app = some (s, teardownTrace ++ Effect.startCapture :: u) ∧
        (∀ e ∈ u, e.isTeardownStep = false ∧ e ≠ Effect.startCapture) ∧
        (Effect.setState State.HALTED ∈ u → env.analyzerFails = true) ∧
        (teardownTrace ++ Effect.startCapture :: u).count Effect.startCapture = 1) ∧
    (app.state ≠ State.RESTARTING →
      ∃ a, onAnalyzerHalted K env app = some (a, teardownTrace) ∧
        a.state = State.HALTED ∧ Effect.startCapture ∉ teardownTrace) := by
  constructor
  · intro h
    obtain ⟨r, h1, h2, -, -⟩ := startCapture_spec K env
      { app with
        analyzer := none
        dataSaver := none
        state := State.HALTED
        inspectors := []
        audioInspectorOpened := false
        audioSampleRate := 0
        audioInspHandle := 0
        playBack := none
        audioConfigured := false }
    have hu : ∀ e ∈ r.2, e.isTeardownStep = false ∧ e ≠ Effect.startCapture :=
      fun e he => startAction_not_teardown env e (h2 e he)
    refine ⟨_, r.1, r.2, haltedTeardown_eq app, rfl, rfl, rfl, rfl, rfl, h1, ?_, hu, ?_, ?_⟩
    · simp [onAnalyzerHalted, haltedTeardown_eq, andThen_some, h, h1]
    · intro hm
      rcases h2 _ hm with hh | ⟨-, hh⟩
      · simp [Effect.fromStart] at hh
      · exact hh
    · have hz : r.2.count Effect.startCapture = 0 :=
        List.count_eq_zero.mpr (fun hm => (hu _ hm).2 rfl)
      simp [teardownTrace, List.count_cons, hz]
  · intro h
    have hh : onAnalyzerHalted K env app = haltedTeardown app := by
      simp [onAnalyzerHalted, haltedTeardown_eq, andThen_some, h]
    rw [hh, haltedTeardown_eq]
    exact ⟨_, rfl, rfl, by simp [teardownTrace]⟩

/-- Witness of `onAnalyzerHalted_teardown_then_start` on the controller
`appRestarting`, which is in `RESTARTING`. -/
theorem onAnalyzerHalted_teardown_then_start_witness :
    appRestarting.state = State.RESTARTING ∧
    ∃ a s u, haltedTeardown appRestarting = some (a, teardownTrace) ∧
      a.state = State.HALTED ∧ a.analyzer = none ∧ a.dataSaver = none ∧
      a.inspectors = [] ∧ a.playBack = none ∧
      startCapture K0 env0 a = some (s, u) ∧
      onAnalyzerHalted K0 env0 appRestarting
        = some (s, teardownTrace ++ Effect.startCapture :: u) ∧
      (∀ e ∈ u, e.isTeardownStep = false ∧ e ≠ Effect.startCapture) ∧
      (Effect.setState State.HALTED ∈ u → env0.analyzerFails = true) ∧
      (teardownTrace ++ Effect.startCapture :: u).count Effect.startCapture = 1 :=
  ⟨rfl, (onAnalyzerHalted_teardown_then_start K0 env0 appRestarting).1 rfl⟩

/-- Claim C8: with `1 ≤ maxAudioBw` (the interval of the clamp is not empty),
`getAudioInspectorBandwidth` is `clamp(displayBandwidth, 1, maxAudioBw)` and
`getAudioInspectorLo` is the reference `effectiveLO`; with the cursor at 100000
and a bandwidth of 10000 the result is 105000 for USB, 95000 for LSB and the
cursor itself for any other demodulator. -/
theorem getAudioInspectorLo_eq_effectiveLO (app : Application) (h : 1 ≤ app.maxAudioBw) :
    getAudioInspectorBandwidth app = clamp app.ui.spectrum.bandwidth 1 app.maxAudioBw ∧
    getAudioInspectorLo app
      = effectiveLO app.ui.spectrum.loFreq app.ui.audioPanel.demod
          app.ui.spectrum.bandwidth app.maxAudioBw ∧
    (app.ui.spectrum.loFreq = 100000 → getAudioInspectorBandwidth app = 10000 →
      (app.ui.audioPanel.demod = AudioDemod.USB → getAudioInspectorLo app = 105000) ∧
      (app.ui.audioPanel.demod = AudioDemod.LSB → getAudioInspectorLo app = 95000) ∧
      (∀ k, app.ui.audioPanel.demod = AudioDemod.other k →
        getAudioInspectorLo app = 100000)) := by
  have hb : getAudioInspectorBandwidth app
      = clamp app.ui.spectrum.bandwidth 1 app.maxAudioBw := by
    unfold getAudioInspectorBandwidth clamp
    by_cases h1 : app.ui.spectrum.bandwidth > app.maxAudioBw
    · simp only [h1, if_true]
      rw [min_eq_right (le_of_lt h1), max_eq_right h]
    · simp only [h1, if_false]
      rw [min_eq_left (not_lt.mp h1)]
      by_cases h2 : app.ui.spectrum.bandwidth < 1
      · simp only [h2, if_true]
        rw [max_eq_left (le_of_lt h2)]
      · simp only [h2, if_false]
        rw [max_eq_right (not_lt.mp h2)]
  refine ⟨hb, ?_, ?_⟩
  · unfold getAudioInspectorLo effectiveLO
    rw [hb]
    cases app.ui.audioPanel.demod <;> simp
  · intro hl hw
    unfold getAudioInspectorLo
    rw [hw, hl]
    refine ⟨fun hd => ?_, fun hd => ?_, fun k hd => ?_⟩
    · rw [hd, if_pos rfl]; norm_num
    · rw [hd, if_neg (by decide), if_pos rfl]; norm_num
    · rw [hd, if_neg (by simp), if_neg (by simp)]

/-- Witness of `getAudioInspectorLo_eq_effectiveLO` on the controller `app0`:
`maxAudioBw` is 200000, the cursor is at 100000, the display bandwidth is
10000 and the demodulator is USB. -/
theorem getAudioInspectorLo_eq_effectiveLO_witness :
    (1 : ℚ) ≤ app0.maxAudioBw ∧
    getAudioInspectorBandwidth app0 = clamp app0.ui.spectrum.bandwidth 1 app0.maxAudioBw ∧
    getAudioInspectorLo app0
      = effectiveLO app0.ui.spectrum.loFreq app0.ui.audioPanel.demod
          app0.ui.spectrum.bandwidth app0.maxAudioBw ∧
    (app0.ui.spectrum.loFreq = 100000 → getAudioInspectorBandwidth app0 = 10000 →
      (app0.ui.audioPanel.demod = AudioDemod.USB → getAudioInspectorLo app0 = 105000) ∧
      (app0.ui.audioPanel.demod = AudioDemod.LSB → getAudioInspectorLo app0 = 95000) ∧
      (∀ k, app0.ui.audioPanel.demod = AudioDemod.other k →
        getAudioInspectorLo app0 = 100000)) :=
  have h : (1 : ℚ) ≤ app0.maxAudioBw := by
    show (1 : ℚ) ≤ 200000
    norm_num
  ⟨h, getAudioInspectorLo_eq_effectiveLO app0 h⟩

/-- Claim C9: with an analyzer present, `assertAudioInspectorLo` sends
`setInspectorFreq` exactly when `|newLO − lastLO| > 1e-8`, where `newLO` is
`getAudioInspectorLo`; when it sends, `lastAudioLo` becomes `newLO` and nothing
else changes; when it does not, the controller is unchanged. A second call on
the resulting controller sends nothing. -/
theorem assertAudioInspectorLo_pushes_iff (app : Application) (an : Analyzer)
    (h : app.analyzer = some an) :
    ∃ r, assertAudioInspectorLo app = some r ∧
      (Effect.analyzer (AnalyzerCall.setInspectorFreq app.audioInspHandle
          (getAudioInspectorLo app)) ∈ r.2
        ↔ |getAudioInspectorLo app - app.lastAudioLo| > 1 / 100000000) ∧
      (|getAudioInspectorLo app - app.lastAudioLo| > 1 / 100000000 →
        r = ({ app with lastAudioLo := getAudioInspectorLo app },
          [Effect.analyzer (AnalyzerCall.setInspectorFreq app.audioInspHandle
            (getAudioInspectorLo app))])) ∧
      (¬ |getAudioInspectorLo app - app.lastAudioLo| > 1 / 100000000 → r = (app, [])) ∧
      assertAudioInspectorLo r.1 = some (r.1, []) := by
  have hlo : ∀ x : ℚ, getAudioInspectorLo { app with lastAudioLo := x }
      = getAudioInspectorLo app := fun _ => rfl
  by_cases hc : |getAudioInspectorLo app - app.lastAudioLo| > 1 / 100000000
  · refine ⟨({ app with lastAudioLo := getAudioInspectorLo app },
        [Effect.analyzer (AnalyzerCall.setInspectorFreq app.audioInspHandle
          (getAudioInspectorLo app))]), ?_, ?_, fun _ => rfl, fun hn => absurd hc hn, ?_⟩
    · unfold assertAudioInspectorLo
      dsimp only
      rw [if_pos hc, h]
    · exact ⟨fun _ => hc, fun _ => List.mem_singleton.mpr rfl⟩
    · unfold assertAudioInspectorLo
      dsimp only
      rw [hlo, if_neg]
      rw [sub_self, abs_zero]
      norm_num
  · refine ⟨(app, []), ?_, ?_, fun hp => absurd hp hc, fun _ => rfl, ?_⟩
    · unfold assertAudioInspectorLo
      dsimp only
      rw [if_neg hc]
    · exact ⟨fun hm => absurd hm (List.not_mem_nil _), fun hp => absurd hp hc⟩
    · unfold assertAudioInspectorLo
      dsimp only
      rw [if_neg hc]

/-- Witness of `assertAudioInspectorLo_pushes_iff` on the controller
`appRunning`, which holds an analyzer. -/
theorem assertAudioInspectorLo_pushes_iff_witness :
    appRunning.analyzer = some { sampleRate := 1000000, baseBandFilters := 1 } ∧
    ∃ r, assertAudioInspectorLo appRunning = some r ∧
      (Effect.analyzer (AnalyzerCall.setInspectorFreq appRunning.audioInspHandle
          (getAudioInspectorLo appRunning)) ∈ r.2
        ↔ |getAudioInspectorLo appRunning - appRunning.lastAudioLo| > 1 / 100000000) ∧
      (|getAudioInspectorLo appRunning - appRunning.lastAudioLo| > 1 / 100000000 →
        r = ({ appRunning with lastAudioLo := getAudioInspectorLo appRunning },
          [Effect.analyzer (AnalyzerCall.setInspectorFreq appRunning.audioInspHandle
            (getAudioInspectorLo appRunning))])) ∧
      (¬ |getAudioInspectorLo appRunning - appRunning.lastAudioLo| > 1 / 100000000 →
        r = (appRunning, [])) ∧
      assertAudioInspectorLo r.1 = some (r.1, []) :=
  ⟨rfl, assertAudioInspectorLo_pushes_iff appRunning _ rfl⟩

/-- After a writer failure was handled, further `stopped` and `swamped` signals
change nothing and perform no action. -/
theorem run_writer_failures_detached (K : Constants) (app : Application)
    (h : app.dataSaver = none) (es : List Event) (hes : ∀ e ∈ es, e.isWriterFailure = true) :
    run K app es = some (app, []) := by
  induction es with
  | nil => rfl
  | cons e es ih =>
    have he : e.isWriterFailure = true := hes e (List.mem_cons_self _ _)
    have ih2 := ih (fun x hx => hes x (List.mem_cons_of_mem _ hx))
    cases e <;> simp [Event.isWriterFailure] at he
    · simp [run, step, onSaveError, h, andThen_some, ih2]
    · simp [run, step, onSaveSwamped, h, andThen_some, ih2]

/-- Claim C10: on `stopped` (`onSaveError`) and on `swamped` (`onSaveSwamped`)
with a writer attached, the writer is detached, the record flag is cleared by
exactly one `setRecordState(false)`, and the session state and the analyzer
handle are unchanged; any sequence of further `stopped` and `swamped` signals
leaves the controller as it is and performs no action at all. -/
theorem writer_failure_detaches_once (K : Constants) (app : Application) (w : AsyncDataSaver)
    (h : app.dataSaver = some w) (e : Event) (he : e.isWriterFailure = true) :
    ∃ r, step K app e = some r ∧
      r.1.dataSaver = none ∧ r.1.ui.sourcePanel.recordState = false ∧
      r.2.count (Effect.setRecordState false) = 1 ∧
      r.1.state = app.state ∧ r.1.analyzer = app.analyzer ∧
      (∀ es : List Event, (∀ x ∈ es, x.isWriterFailure = true) →
        run K r.1 es = some (r.1, [])) := by
  cases e <;> simp [Event.isWriterFailure] at he
  · refine ⟨onSaveError app, rfl, ?_, ?_, ?_, ?_, ?_, ?_⟩
    · simp [onSaveError, h, setRecordState, uninstallDataSaver]
    · simp [onSaveError, h, setRecordState, uninstallDataSaver]
    · simp [onSaveError, h, List.count_cons]
    · simp [onSaveError, h, setRecordState, uninstallDataSaver]
    · simp [onSaveError, h, setRecordState, uninstallDataSaver]
    · intro es hes
      exact run_writer_failures_detached K _
        (by simp [onSaveError, h, setRecordState, uninstallDataSaver]) es hes
  · refine ⟨onSaveSwamped app, rfl, ?_, ?_, ?_, ?_, ?_, ?_⟩
    · simp [onSaveSwamped, h, setRecordState, uninstallDataSaver]
    · simp [onSaveSwamped, h, setRecordState, uninstallDataSaver]
    · simp [onSaveSwamped, h, List.count_cons]
    · simp [onSaveSwamped, h, setRecordState, uninstallDataSaver]
    · simp [onSaveSwamped, h, setRecordState, uninstallDataSaver]
    · intro es hes
      exact run_writer_failures_detached K _
        (by simp [onSaveSwamped, h, setRecordState, uninstallDataSaver]) es hes

/-- Witness of `writer_failure_detaches_once`: the signal `swamped` on the
controller `appRunning`, whose writer is on descriptor 3. -/
theorem writer_failure_detaches_once_witness :
    appRunning.dataSaver = some { fd := 3, sampleRate := 1000000, size := 0 } ∧
    Event.saveSwamped.isWriterFailure = true ∧
    ∃ r, step K0 appRunning Event.saveSwamped = some r ∧
      r.1.dataSaver = none ∧ r.1.ui.sourcePanel.recordState = false ∧
      r.2.count (Effect.setRecordState false) = 1 ∧
      r.1.state = appRunning.state ∧ r.1.analyzer = appRunning.analyzer ∧
      (∀ es : List Event, (∀ x ∈ es, x.isWriterFailure = true) →
        run K0 r.1 es = some (r.1, [])) :=
  ⟨rfl, rfl, writer_failure_detaches_once K0 appRunning _ rfl Event.saveSwamped rfl⟩

/-- Claim C11: with a writer already active, `installDataSaver` returns the
controller unchanged and performs no action. Hence a second attach right after
a first one changes nothing and performs nothing, whatever the controller; and
when the first attach found no writer and an analyzer, the writer active after
both is the first one, the filter hook was registered at most once by the two
calls, and the analyzer of the result carries the registrations of the first
call alone. -/
theorem installDataSaver_idempotent (fd1 fd2 : Int) (app : Application) :
    (∀ w, app.dataSaver = some w → installDataSaver fd1 app = (app, [])) ∧
    installDataSaver fd2 (installDataSaver fd1 app).1 = ((installDataSaver fd1 app).1, []) ∧
    (∀ an, app.dataSaver = none → app.analyzer = some an →
      (installDataSaver fd2 (installDataSaver fd1 app).1).1.dataSaver
        = some { fd := fd1, sampleRate := app.profile.sampleRate, size := 0 } ∧
      ((installDataSaver fd1 app).2 ++ (installDataSaver fd2 (installDataSaver fd1 app).1).2).count
          (Effect.analyzer AnalyzerCall.registerBaseBandFilter) ≤ 1 ∧
      (installDataSaver fd2 (installDataSaver fd1 app).1).1.analyzer
        = (installDataSaver fd1 app).1.analyzer ∧
      (installDataSaver fd2 (installDataSaver fd1 app).1).1.filterInstalled = true) := by
  have h1 : ∀ (fd : Int) (a : Application) (w : AsyncDataSaver), a.dataSaver = some w →
      installDataSaver fd a = (a, []) := by
    intro fd a w hw
    simp [installDataSaver, hw]
  have h2 : installDataSaver fd2 (installDataSaver fd1 app).1
      = ((installDataSaver fd1 app).1, []) := by
    cases hd : app.dataSaver with
    | some w => rw [h1 fd1 app w hd]; exact h1 fd2 app w hd
    | none =>
      cases ha : app.analyzer with
      | none => simp [installDataSaver, hd, ha]
      | some an =>
        by_cases hf : app.filterInstalled = true
        · exact h1 fd2 _ { fd := fd1, sampleRate := app.profile.sampleRate, size := 0 }
            (by simp [installDataSaver, hd, ha, hf])
        · exact h1 fd2 _ { fd := fd1, sampleRate := app.profile.sampleRate, size := 0 }
            (by simp [installDataSaver, hd, ha, hf])
  refine ⟨fun w hw => h1 fd1 app w hw, h2, ?_⟩
  intro an hd ha
  rw [h2]
  by_cases hf : app.filterInstalled = true
  · simp [installDataSaver, hd, ha, hf, List.count_cons]
  · simp [installDataSaver, hd, ha, hf, List.count_cons]

/-- Witness of `installDataSaver_idempotent`: the controller `appRunning` has
a writer on descriptor 3, and an attach on descriptor 4 leaves it as it is. -/
theorem installDataSaver_idempotent_witness :
    appRunning.dataSaver = some { fd := 3, sampleRate := 1000000, size := 0 } ∧
    installDataSaver 4 appRunning = (appRunning, []) :=
  ⟨rfl, (installDataSaver_idempotent 4 5 appRunning).1 _ rfl⟩

/-- Claim C12: in `RUNNING` with the analyzer held, `stopCapture` sets the
state to `HALTING` and `restartCapture` sets it to `RESTARTING`; each sends
exactly one `halt` to the analyzer, performs no release step, and leaves every
other field, the analyzer handle included, as it was. In every other state
both return the controller unchanged and perform no action. -/
theorem stop_restart_only_from_RUNNING (app : Application) :
    (∀ an, app.state = State.RUNNING → app.analyzer = some an →
      ∃ r1 r2, stopCapture app = some r1 ∧ restartCapture app = some r2 ∧
        r1.1 = { app with state := State.HALTING } ∧
        r2.1 = { app with state := State.RESTARTING } ∧
        r1.2.count (Effect.analyzer AnalyzerCall.halt) = 1 ∧
        r2.2.count (Effect.analyzer AnalyzerCall.halt) = 1 ∧
        (∀ e ∈ r1.2 ++ r2.2, e.isTeardownStep = false) ∧
        r1.1.analyzer = some an ∧ r2.1.analyzer = some an) ∧
    (app.state ≠ State.RUNNING →
      stopCapture app = some (app, []) ∧ restartCapture app = some (app, [])) := by
  constructor
  · intro an hs ha
    refine ⟨({ app with state := State.HALTING },
        [Effect.setState State.HALTING, Effect.analyzer AnalyzerCall.halt]),
      ({ app with state := State.RESTARTING },
        [Effect.setState State.RESTARTING, Effect.analyzer AnalyzerCall.halt]),
      ?_, ?_, rfl, rfl, by simp [List.count_cons], by simp [List.count_cons], ?_, ha, ha⟩
    · simp [stopCapture, hs, ha]
    · simp [restartCapture, hs, ha]
    · intro e he
      simp only [List.mem_append, List.mem_cons, List.mem_singleton, List.not_mem_nil,
        or_false] at he
      rcases he with (rfl | rfl) | (rfl | rfl) <;> rfl
  · intro hs
    exact ⟨by simp [stopCapture, hs], by simp [restartCapture, hs]⟩

/-- Witness of `stop_restart_only_from_RUNNING`: the controller `appRunning` is
`RUNNING` and holds an analyzer; the controller `appHalting` is not `RUNNING`. -/
theorem stop_restart_only_from_RUNNING_witness :
    appRunning.state = State.RUNNING ∧
    appRunning.analyzer = some { sampleRate := 1000000, baseBandFilters := 1 } ∧
    (∃ r1 r2, stopCapture appRunning = some r1 ∧ restartCapture appRunning = some r2 ∧
      r1.1 = { appRunning with state := State.HALTING } ∧
      r2.1 = { appRunning with state := State.RESTARTING } ∧
      r1.2.count (Effect.analyzer AnalyzerCall.halt) = 1 ∧
      r2.2.count (Effect.analyzer AnalyzerCall.halt) = 1 ∧
      (∀ e ∈ r1.2 ++ r2.2, e.isTeardownStep = false) ∧
      r1.1.analyzer = some { sampleRate := 1000000, baseBandFilters := 1 } ∧
      r2.1.analyzer = some { sampleRate := 1000000, baseBandFilters := 1 }) ∧
    appHalting.state ≠ State.RUNNING ∧
    stopCapture appHalting = some (appHalting, []) ∧
    restartCapture appHalting = some (appHalting, []) :=
  ⟨rfl, rfl, (stop_restart_only_from_RUNNING appRunning).1 _ rfl rfl,
    by decide, (stop_restart_only_from_RUNNING appHalting).2 (by decide)⟩

/-- The stored profile holds the value written by `setGain`. -/
theorem Profile.getGain_setGain (p : Profile) (name : String) (val : ℚ) :
    (p.setGain name val).getGain name = some val := by
  simp [Profile.setGain, Profile.getGain]

/-- Claim C13, as stated, fails for the gain: in the `HALTED` controller `app0`
a gain change of `LNA` to 30 returns the controller unchanged, so the stored
profile still holds no value for `LNA`; no call is made on the analyzer. -/
theorem onGainChanged_HALTED_drops_value :
    app0.state = State.HALTED ∧ app0.profile.getGain "LNA" = none ∧
    (onGainChanged "LNA" 30 app0).map (fun r => (r.1.profile.getGain "LNA", r.2))
      = some (none, []) ∧
    onGainChanged "LNA" 30 app0 = some (app0, []) := by
  refine ⟨rfl, rfl, rfl, rfl⟩

/-- Claim C13, amended. Frequency: the new value is always written to the
stored profile; in `RUNNING` with the analyzer held it is also sent to the
analyzer (`setFrequency`), in any other state, `HALTED` included, no call is
made on the analyzer. Gain: in `RUNNING` with the analyzer held the new value
is written to the stored profile and sent to the analyzer (`setGain`); in any
other state, `HALTED` included, the handler does nothing, the profile is not
written and no call is made on the analyzer. -/
theorem parameter_change_by_state (name : String) (val : ℚ) (freq : Int) (app : Application) :
    (∀ an, app.state = State.RUNNING → app.analyzer = some an →
      onFrequencyChanged freq app
        = some ({ app with profile := app.profile.setFreq freq },
            [Effect.analyzer (AnalyzerCall.setFrequency freq)]) ∧
      onGainChanged name val app
        = some ({ app with profile := app.profile.setGain name val },
            [Effect.analyzer (AnalyzerCall.setGain name val)])) ∧
    (app.state ≠ State.RUNNING →
      onFrequencyChanged freq app
        = some ({ app with profile := app.profile.setFreq freq }, []) ∧
      onGainChanged name val app = some (app, [])) ∧
    (app.profile.setFreq freq).freq = freq ∧
    (app.profile.setGain name val).getGain name = some val := by
  refine ⟨?_, ?_, rfl, Profile.getGain_setGain _ _ _⟩
  · intro an hs ha
    exact ⟨by simp [onFrequencyChanged, hs, ha], by simp [onGainChanged, hs, ha]⟩
  · intro hs
    exact ⟨by simp [onFrequencyChanged, hs], by simp [onGainChanged, hs]⟩

/-- Witness of `parameter_change_by_state`: a frequency change and a gain
change on `appRunning`, which is `RUNNING` and holds an analyzer, and on
`app0`, which is `HALTED`. -/
theorem parameter_change_by_state_witness :
    appRunning.state = State.RUNNING ∧
    appRunning.analyzer = some { sampleRate := 1000000, baseBandFilters := 1 } ∧
    (onFrequencyChanged 144000000 appRunning
        = some ({ appRunning with profile := appRunning.profile.setFreq 144000000 },
            [Effect.analyzer (AnalyzerCall.setFrequency 144000000)]) ∧
      onGainChanged "LNA" 30 appRunning
        = some ({ appRunning with profile := appRunning.profile.setGain "LNA" 30 },
            [Effect.analyzer (AnalyzerCall.setGain "LNA" 30)])) ∧
    app0.state ≠ State.RUNNING ∧
    (onFrequencyChanged 144000000 app0
        = some ({ app0 with profile := app0.profile.setFreq 144000000 }, []) ∧
      onGainChanged "LNA" 30 app0 = some (app0, [])) :=
  ⟨rfl, rfl, (parameter_change_by_state "LNA" 30 144000000 appRunning).1 _ rfl rfl,
    by decide, (parameter_change_by_state "LNA" 30 144000000 app0).2.1 (by decide)⟩

/-- The ceiling of the `SPECTRUM` branch is `max(0, M) + 5`. -/
theorem spectrumCeiling_eq {α : Type} [LinearOrderedField α] (log10f : α → α)
    (data : List α) :
    spectrumCeiling log10f data = max 0 (frameMax (data.map log10f)) + 5 := by
  unfold spectrumCeiling
  rw [logLoop_eq, runningMax_eq]

/-- The ceiling is `M + 5` exactly when some log value is at least 0, on a
frame that is not empty. -/
theorem spectrumCeiling_eq_frameMax_iff {α : Type} [LinearOrderedField α] (log10f : α → α)
    (data : List α) (h : data ≠ []) :
    spectrumCeiling log10f data = frameMax (data.map log10f) + 5
      ↔ ∃ v ∈ data.map log10f, 0 ≤ v := by
  rw [spectrumCeiling_eq]
  have hne : data.map log10f ≠ [] := by simpa using h
  constructor
  · intro he
    have h0 : max 0 (frameMax (data.map log10f)) = frameMax (data.map log10f) :=
      add_right_cancel he
    exact ⟨_, frameMax_mem _ hne, h0 ▸ le_max_left 0 _⟩
  · rintro ⟨v, hv, h0⟩
    rw [max_eq_right (le_trans h0 (le_frameMax _ v hv))]

/-- The ceiling is 5 when every log value is negative. -/
theorem spectrumCeiling_eq_five {α : Type} [LinearOrderedField α] (log10f : α → α)
    (data : List α) (h : ∀ v ∈ data.map log10f, v < 0) :
    spectrumCeiling log10f data = 5 := by
  rw [spectrumCeiling_eq]
  have hM : frameMax (data.map log10f) ≤ 0 := by
    by_cases hne : data.map log10f = []
    · rw [hne]; exact le_of_eq rfl
    · exact le_of_lt (h _ (frameMax_mem _ hne))
  rw [max_eq_left hM, zero_add]

/-- Every entry below `2·(N/2)` of the transformed frame, that is every entry
of a frame of even length, is at most `-5`. -/
theorem spectrumTransform_le {α : Type} [LinearOrderedField α] (log10f : α → α)
    (data : List α) (i : Nat) (hi : i < 2 * (data.length / 2)) :
    (spectrumTransform log10f data).getD i 0 ≤ -5 := by
  have hmem : ∀ k, k < data.length →
      (data.map log10f).getD k 0 ≤ max 0 (frameMax (data.map log10f)) := by
    intro k hk
    have hk' : k < (data.map log10f).length := by simpa using hk
    rw [List.getD_eq_getElem _ _ hk']
    exact le_trans (le_frameMax _ _ (List.getElem_mem hk')) (le_max_right 0 _)
  rw [spectrumTransform_getD log10f data i hi]
  split_ifs with c
  · have := hmem (i + data.length / 2) (by omega)
    linarith
  · have := hmem (i - data.length / 2) (by omega)
    linarith

/-- Value of the base-10 logarithm at one million. -/
theorem logb_million : Real.logb 10 1000000 = 6 := by
  rw [show (1000000 : ℝ) = (10 : ℝ) ^ (6 : ℕ) by norm_num, Real.logb_pow,
    Real.logb_self_eq_one (by norm_num)]
  norm_num

/-- Claim C14, evaluated on the code: the frame `[1, 10, 1000000]` of odd
length, with the real base-10 logarithm (`L = [0, 1, 6]`, ceiling 11), is
forwarded as `[-10, -11, 6]`: the second loop runs once and the last sample
keeps its log value 6, above 5. -/
theorem spectrum_odd_frame_exceeds_five :
    onInspectorMessageSpectrum (Real.logb 10) appInspecting 1 [1, 10, 1000000]
      = some [-10, -11, 6] ∧
    ¬ ([-10, -11, (6 : ℝ)].getD 2 0 ≤ 5) := by
  have hi : 1 ∈ appInspecting.inspectors := List.mem_singleton.mpr rfl
  constructor
  · simp [onInspectorMessageSpectrum, hi, spectrumTransform, spectrumLogStep, spectrumSwapStep,
      List.range_succ, logb_ten, logb_million]
    norm_num
  · norm_num

/-- Claim C15: the ceiling subtracted in the `SPECTRUM` branch is
`max(0, M) + 5`, with `M` the largest log value of the frame, and every entry
the second loop writes is a log value minus this ceiling. On a frame that is
not empty the ceiling is `M + 5` exactly when some log value is at least 0; it
is 5 when every log value is negative, and for the empty frame. With the real
base-10 logarithm and positive samples, "some log value is at least 0" is
"some sample is at least 1" and "every log value is negative" is "every sample
is below 1". -/
theorem spectrum_ceiling_from_zero {α : Type} [LinearOrderedField α] (log10f : α → α)
    (data : List α) :
    spectrumCeiling log10f data = max 0 (frameMax (data.map log10f)) + 5 ∧
    (∀ i, i < 2 * (data.length / 2) →
      (spectrumTransform log10f data).getD i 0
        = (data.map log10f).getD
            (if i < data.length / 2 then i + data.length / 2 else i - data.length / 2) 0
          - spectrumCeiling log10f data) ∧
    (data ≠ [] →
      (spectrumCeiling log10f data = frameMax (data.map log10f) + 5
        ↔ ∃ v ∈ data.map log10f, 0 ≤ v)) ∧
    ((∀ v ∈ data.map log10f, v < 0) → spectrumCeiling log10f data = 5) ∧
    spectrumCeiling log10f ([] : List α) = 5 ∧
    (∀ samples : List ℝ, (∀ d ∈ samples, 0 < d) →
      (samples ≠ [] →
        (spectrumCeiling (Real.logb 10) samples
            = frameMax (samples.map (Real.logb 10)) + 5
          ↔ ∃ d ∈ samples, 1 ≤ d)) ∧
      ((∀ d ∈ samples, d < 1) → spectrumCeiling (Real.logb 10) samples = 5)) := by
  refine ⟨spectrumCeiling_eq log10f data, ?_, spectrumCeiling_eq_frameMax_iff log10f data,
    spectrumCeiling_eq_five log10f data, ?_, ?_⟩
  · intro i hi
    rw [spectrumTransform_getD log10f data i hi, spectrumCeiling_eq]
    split_ifs <;> rfl
  · exact spectrumCeiling_eq_five log10f [] (by simp)
  · intro samples hpos
    constructor
    · intro hne
      rw [spectrumCeiling_eq_frameMax_iff (Real.logb 10) samples hne]
      constructor
      · rintro ⟨v, hv, h0⟩
        obtain ⟨d, hd, rfl⟩ := List.mem_map.mp hv
        exact ⟨d, hd, (Real.logb_nonneg_iff (by norm_num) (hpos d hd)).mp h0⟩
      · rintro ⟨d, hd, h1⟩
        exact ⟨_, List.mem_map.mpr ⟨d, hd, rfl⟩, Real.logb_nonneg (by norm_num) h1⟩
    · intro hlt
      apply spectrumCeiling_eq_five
      intro v hv
      obtain ⟨d, hd, rfl⟩ := List.mem_map.mp hv
      exact Real.logb_neg (by norm_num) (hpos d hd) (hlt d hd)

/-- Witness of `spectrum_ceiling_from_zero` with the real base-10 logarithm:
the frame `[1/10, 1/100]` is not empty and its samples are positive and below
1, so its ceiling is 5; the frame `[10, 1/10]` holds a sample that is at least
1, so its ceiling is `M + 5`. -/
theorem spectrum_ceiling_from_zero_witness :
    (∀ d ∈ [(1 / 10 : ℝ), 1 / 100], 0 < d) ∧ (∀ d ∈ [(1 / 10 : ℝ), 1 / 100], d < 1) ∧
    spectrumCeiling (Real.logb 10) [1 / 10, 1 / 100] = 5 ∧
    (∀ d ∈ [(10 : ℝ), 1 / 10], 0 < d) ∧ [(10 : ℝ), 1 / 10] ≠ [] ∧
    (∃ d ∈ [(10 : ℝ), 1 / 10], 1 ≤ d) ∧
    spectrumCeiling (Real.logb 10) [10, 1 / 10]
      = frameMax ([(10 : ℝ), 1 / 10].map (Real.logb 10)) + 5 :=
  have p1 : ∀ d ∈ [(1 / 10 : ℝ), 1 / 100], 0 < d := by
    intro d hd
    simp only [List.mem_cons, List.mem_singleton, List.not_mem_nil, or_false] at hd
    rcases hd with rfl | rfl <;> norm_num
  have p2 : ∀ d ∈ [(1 / 10 : ℝ), 1 / 100], d < 1 := by
    intro d hd
    simp only [List.mem_cons, List.mem_singleton, List.not_mem_nil, or_false] at hd
    rcases hd with rfl | rfl <;> norm_num
  have p3 : ∀ d ∈ [(10 : ℝ), 1 / 10], 0 < d := by
    intro d hd
    simp only [List.mem_cons, List.mem_singleton, List.not_mem_nil, or_false] at hd
    rcases hd with rfl | rfl <;> norm_num
  have p4 : [(10 : ℝ), 1 / 10] ≠ [] := by simp
  have p5 : ∃ d ∈ [(10 : ℝ), 1 / 10], 1 ≤ d := ⟨10, by simp, by norm_num⟩
  ⟨p1, p2,
    ((spectrum_ceiling_from_zero (Real.logb 10) [(1 / 10 : ℝ), 1 / 100]).2.2.2.2.2
      [1 / 10, 1 / 100] p1).2 p2,
    p3, p4, p5,
    (((spectrum_ceiling_from_zero (Real.logb 10) [(10 : ℝ), 1 / 10]).2.2.2.2.2
      [10, 1 / 10] p3).1 p4).mpr p5⟩

end SigDigger
